import Mathlib

/-!
Verification development for the NexusCodex document-library platform.

The definitions below are a shallow embedding of the in-scope core of the
repository: the processing log sink (`logging.service.ts`), the OCR heuristic
(`ocr.service.ts`), the content-hash / duplicate-detection service
(`content-hash.service.ts`), the document-processing worker pipeline
(`process-document.worker.ts`), the Redis-backed session registry
(`session.service.ts` / `redis.service.ts`), the realtime gateway
(`websocket/server.ts` and its handlers), and the job queue configuration
(`queue.service.ts`).

External collaborators (S3, SHA-256, PDF/markdown extractors, ElasticSearch,
structured-data extraction, UUID generation, wall-clock time) are modelled as
explicit parameters: pure functions supplied through environment records.
JavaScript strings stored in Redis are modelled by an inductive type that
records exactly what matters to the code that reads them back: whether
`JSON.parse` succeeds, and whether the parsed value is truthy.
-/

set_option linter.unusedVariables false

namespace NexusCodex

/-! Processing log sink (`logging.service.ts`). -/

/-- Log severity level, mirroring `level: 'info' | 'warn' | 'error'`. -/
inductive LogLevel where
  | info
  | warn
  | error
deriving DecidableEq

/-- One processing-log entry, mirroring the `ProcessingLog` interface.
The free-form `details` JSON blob is modelled as an optional opaque string. -/
structure ProcessingLog where
  timestamp : String
  level : LogLevel
  message : String
  step : Option String
  details : Option String
deriving DecidableEq

/-- A JavaScript value produced by `JSON.parse`, at the granularity the log
reader cares about: either a JSON object holding a log entry (always truthy),
or some other valid-JSON value that is falsy in JavaScript
(`null`, `false`, `0`, or the empty string). -/
inductive JsVal where
  | obj (e : ProcessingLog)
  | falsy
deriving DecidableEq

/-- JavaScript truthiness of a parsed value: objects are truthy. -/
def JsVal.truthy : JsVal → Bool
  | .obj _ => true
  | .falsy => false

/-- One raw string stored in the Redis list `job:logs:<jobId>`: either it is
valid JSON parsing to `v`, or `JSON.parse` throws on it. -/
inductive StoredString where
  | json (v : JsVal)
  | corrupt
deriving DecidableEq

/-- The `JSON.parse` call wrapped in try/catch inside `getLogs`: a corrupt
entry yields `none` (the catch branch returns `null`). -/
def jsParse : StoredString → Option JsVal
  | .json v => some v
  | .corrupt => none

/-- The Redis list backing one job's log; the head is the most recently
pushed element (`lpush` prepends). -/
abbrev LogStore := List StoredString

/-- The timestamp defaulting in `addLog`:
`timestamp: log.timestamp || new Date().toISOString()` keeps a truthy
(non-empty) timestamp and replaces a falsy (empty) one with the current time. -/
def withDefaultTimestamp (now : String) (log : ProcessingLog) : ProcessingLog :=
  { log with timestamp := if log.timestamp = "" then now else log.timestamp }

/-- `LoggingService.addLog`: serialize the entry (with defaulted timestamp)
and `lpush` it onto the per-job list.  `JSON.stringify` of a log object always
produces a string that parses back to the same truthy object. -/
def addLog (store : LogStore) (now : String) (log : ProcessingLog) : LogStore :=
  StoredString.json (JsVal.obj (withDefaultTimestamp now log)) :: store

/-- `LoggingService.getLogs`: `lrange 0 -1`, then
`.map(parse-or-null).filter(Boolean).reverse()`.  `filter(Boolean)` discards
both failed parses (`null` from the catch) and falsy parsed values. -/
def getLogs (store : LogStore) : List JsVal :=
  ((store.map jsParse).filterMap
      (fun o => o.bind (fun v => if v.truthy then some v else none))).reverse

/-- Append a whole sequence of `(now, entry)` pairs in order. -/
def appendAll (store : LogStore) (entries : List (String × ProcessingLog)) : LogStore :=
  entries.foldl (fun st p => addLog st p.1 p.2) store

/-! OCR heuristic (`ocr.service.ts`). -/

/-- Whitespace class used by `trim()` and the `/\s+/` split. -/
def wsChar (c : Char) : Bool := c.isWhitespace

/-- JavaScript `String.prototype.trim`: drop leading and trailing whitespace. -/
def jsTrim (l : List Char) : List Char :=
  ((l.dropWhile wsChar).reverse.dropWhile wsChar).reverse

/-- A character list with no leading whitespace. -/
def noLeadWs (l : List Char) : Prop := ∀ c ∈ l.head?, wsChar c = false

/-- A character list with no trailing whitespace. -/
def noTrailWs (l : List Char) : Prop := ∀ c ∈ l.getLast?, wsChar c = false

/-- JavaScript `str.split(/\s+/)`: cut the string at maximal whitespace runs.
A leading whitespace run contributes a leading empty chunk and a trailing one
a trailing empty chunk; the empty string yields `[[]]`. -/
def jsSplitWs (l : List Char) : List (List Char) :=
  match h : l.dropWhile (fun c => !wsChar c) with
  | [] => [l.takeWhile (fun c => !wsChar c)]
  | _ :: rest => l.takeWhile (fun c => !wsChar c) :: jsSplitWs (rest.dropWhile wsChar)
termination_by l.length
decreasing_by
  have h1 : (l.dropWhile (fun c => !wsChar c)).length ≤ l.length :=
    (List.dropWhile_sublist _).length_le
  rw [h] at h1
  have h2 : (rest.dropWhile wsChar).length ≤ rest.length :=
    (List.dropWhile_sublist _).length_le
  simp only [List.length_cons] at h1
  omega

/-- Number of whitespace-separated tokens of a string: the number of maximal
runs of non-whitespace characters.  This is the specification-side reading of
"whitespace-separated tokens" in the claim, defined independently of
`jsSplitWs`. -/
def countTokens (l : List Char) : Nat :=
  match h : l.dropWhile wsChar with
  | [] => 0
  | _ :: rest => 1 + countTokens (rest.dropWhile (fun c => !wsChar c))
termination_by l.length
decreasing_by
  have h1 : (l.dropWhile wsChar).length ≤ l.length :=
    (List.dropWhile_sublist _).length_le
  rw [h] at h1
  have h2 : (rest.dropWhile (fun c => !wsChar c)).length ≤ rest.length :=
    (List.dropWhile_sublist _).length_le
  simp only [List.length_cons] at h1
  omega

/-- `OcrService.isImageBasedPage`:
`trimmed.length < 50 || trimmed.split(/\s+/).length < 10`. -/
def isImageBasedPage (extractedText : List Char) : Bool :=
  let trimmed := jsTrim extractedText
  decide (trimmed.length < 50) || decide ((jsSplitWs trimmed).length < 10)

/-! Content-hash service (`content-hash.service.ts`) and the document table.
The Prisma document table is modelled as a list of records in an unspecified
storage order; `findFirst` returns the first list element matching the
`where` clause.  `findDuplicate` passes no `orderBy`, so nothing relates
that scan order to `uploadedAt` (contrast `findAllDuplicates`, which orders
by `uploadedAt` explicitly). -/

/-- The JSON `metadata` column shapes written by the in-scope code. -/
inductive DocMetadata where
  | empty
  | duplicateOf (primaryId : String) (detectedAt : String)
  | errorInfo (message : String) (failedAt : String)
deriving DecidableEq

/-- A row of the `document` table, restricted to the columns the in-scope
pipeline reads or writes. -/
structure StoredDocument where
  id : String
  format : String
  storageKey : String
  contentHash : Option String
  ocrStatus : String
  metadata : DocMetadata
  uploadedAt : Nat
  pageCount : Nat
  thumbnailKey : Option String
  searchIndex : Option String
deriving DecidableEq

/-- The document table, in its unspecified storage order. -/
abbrev DocumentDb := List StoredDocument

/-- `prisma.document.findUnique({ where: { id } })`. -/
def lookupDoc (db : DocumentDb) (documentId : String) : Option StoredDocument :=
  db.find? (fun d => d.id == documentId)

/-- `prisma.document.update({ where: { id }, data })`: rewrite the row with
the given id, leaving every other row untouched. -/
def updateDoc (db : DocumentDb) (documentId : String)
    (f : StoredDocument → StoredDocument) : DocumentDb :=
  db.map (fun d => if d.id == documentId then f d else d)

/-- `ContentHashService.findDuplicate`: `findFirst` over rows whose
`contentHash` equals the given hash, excluding the given document id. -/
def findDuplicate (db : DocumentDb) (hash : String)
    (excludeDocumentId : Option String) : Option String :=
  (db.find? (fun d =>
      d.contentHash == some hash &&
        (match excludeDocumentId with
         | some ex => d.id != ex
         | none => true))).map (fun d => d.id)

/-- `ContentHashService.storeHash`: write the hash onto the document row. -/
def storeHash (db : DocumentDb) (documentId : String) (hash : String) : DocumentDb :=
  updateDoc db documentId (fun d => { d with contentHash := some hash })

/-! Worker pipeline (`process-document.worker.ts`). -/

/-- The observable stages of the worker pipeline, in source order. -/
inductive Stage where
  | fetchMetadata
  | download
  | fingerprint
  | duplicateCheck
  | extractText
  | thumbnail
  | searchIndexing
  | structuredData
  | finalUpdate
deriving DecidableEq

/-- External collaborators of the worker, as pure functions: blob store
download, SHA-256, the PDF and markdown extractors, thumbnail generation,
search indexing (returning an index reference), structured-data extraction
(returning `(type, name)` pairs), and the wall clock. -/
structure WorkerEnv where
  nowIso : String
  s3Download : String → String
  sha256 : String → String
  pdfExtract : String → String × Nat
  mdExtract : String → String
  mdHeadings : String → List String
  makeThumbnail : String → String
  elasticIndex : String → String
  extractEntities : String → List (String × String)

/-- One `structuredData` row created by the worker. -/
structure StructuredRow where
  documentId : String
  entityType : String
  name : String
deriving DecidableEq

/-- The observable outcome of one worker run: the final document table, the
structured-data rows created, the stages that were invoked in order, and
whether the job completed successfully. -/
structure WorkerResult where
  db : DocumentDb
  rows : List StructuredRow
  trace : List Stage
  success : Bool

/-- `processDocumentWorker`: set status to processing, fetch the document row,
download the bytes, fingerprint and store the hash, check for a duplicate
(short-circuiting to completed-as-duplicate when found), otherwise extract
text per format, thumbnail PDFs, index, extract structured data, and write
the final status. -/
def processDocumentWorker (env : WorkerEnv) (db : DocumentDb)
    (documentId : String) : WorkerResult :=
  let db1 := updateDoc db documentId (fun d => { d with ocrStatus := "processing" })
  match lookupDoc db1 documentId with
  | none =>
      let dbF := updateDoc db1 documentId (fun d =>
        { d with ocrStatus := "failed",
                 metadata := DocMetadata.errorInfo "Document not found" env.nowIso })
      { db := dbF, rows := [], trace := [Stage.fetchMetadata], success := false }
  | some document =>
      let fileBuffer := env.s3Download document.storageKey
      let contentHash := env.sha256 fileBuffer
      let db2 := storeHash db1 documentId contentHash
      match findDuplicate db2 contentHash (some documentId) with
      | some duplicateId =>
          let db3 := updateDoc db2 documentId (fun d =>
            { d with ocrStatus := "completed",
                     metadata := DocMetadata.duplicateOf duplicateId env.nowIso })
          { db := db3, rows := [],
            trace := [Stage.fetchMetadata, Stage.download, Stage.fingerprint,
                      Stage.duplicateCheck],
            success := true }
      | none =>
          let base := [Stage.fetchMetadata, Stage.download, Stage.fingerprint,
                       Stage.duplicateCheck]
          if document.format == "pdf" then
            let extracted := env.pdfExtract fileBuffer
            let text := extracted.1
            let pageCount := extracted.2
            let needsOCR := isImageBasedPage text.data
            let dbO :=
              if needsOCR then
                updateDoc db2 documentId (fun d => { d with ocrStatus := "pending" })
              else db2
            let thumbnailKey := "thumbnails/" ++ documentId ++ ".jpg"
            let searchRef := env.elasticIndex documentId
            let rows := (env.extractEntities text).map (fun e =>
              { documentId := documentId, entityType := e.1, name := e.2 })
            let dbFinal := updateDoc dbO documentId (fun d =>
              { d with pageCount := pageCount,
                       thumbnailKey := some thumbnailKey,
                       searchIndex := some searchRef,
                       ocrStatus := if needsOCR then "pending" else "completed" })
            { db := dbFinal, rows := rows,
              trace := base ++ [Stage.extractText, Stage.thumbnail,
                                Stage.searchIndexing, Stage.structuredData,
                                Stage.finalUpdate],
              success := true }
          else if document.format == "markdown" then
            let text := env.mdExtract fileBuffer
            let pageCount := max 1 (env.mdHeadings fileBuffer).length
            let searchRef := env.elasticIndex documentId
            let rows := (env.extractEntities text).map (fun e =>
              { documentId := documentId, entityType := e.1, name := e.2 })
            let dbFinal := updateDoc db2 documentId (fun d =>
              { d with pageCount := pageCount,
                       searchIndex := some searchRef,
                       ocrStatus := "completed" })
            { db := dbFinal, rows := rows,
              trace := base ++ [Stage.extractText, Stage.searchIndexing,
                                Stage.structuredData, Stage.finalUpdate],
              success := true }
          else
            let searchRef := env.elasticIndex documentId
            let rows := (env.extractEntities "").map (fun e =>
              { documentId := documentId, entityType := e.1, name := e.2 })
            let dbFinal := updateDoc db2 documentId (fun d =>
              { d with pageCount := 0,
                       searchIndex := some searchRef,
                       ocrStatus := "completed" })
            { db := dbFinal, rows := rows,
              trace := base ++ [Stage.searchIndexing, Stage.structuredData,
                                Stage.finalUpdate],
              success := true }

/-! Session registry (`session.service.ts` over `redis.service.ts`).
The Redis keyspace is modelled as an association list from session id to the
stored session value together with its remaining TTL in seconds.  `SETEX`
(in `setSession`) resets the TTL to the full window; a plain `GET`
(in `getSession`) does not touch it. -/

/-- Per-session sync flags, mirroring `SyncSettings`. -/
structure SyncSettings where
  syncScroll : Bool
  syncPage : Bool
  syncHighlight : Bool
deriving DecidableEq

/-- A collaboration session, mirroring `DocumentSession`.  The scroll
position is modelled as an integer; no claim computes with it. -/
structure DocumentSession where
  sessionId : String
  documentId : String
  campaignId : String
  roomCode : String
  presenter : String
  viewers : List String
  currentPage : Nat
  scrollPosition : Int
  activeHighlights : List String
  syncSettings : SyncSettings
  startedAt : String
  lastActivity : String
deriving DecidableEq

/-- The Redis keyspace restricted to `session:*` keys: each entry is
`(sessionId, storedSession, remainingTtlSeconds)`. -/
structure SessionStore where
  entries : List (String × DocumentSession × Nat)
deriving DecidableEq

/-- `env.SESSION_TTL` of the websocket service (24 hours, in seconds). -/
def SESSION_TTL : Nat := 86400

/-- `RedisService.getSession`: a plain `GET`; the TTL is left untouched. -/
def getSession (st : SessionStore) (sid : String) : Option DocumentSession :=
  (st.entries.find? (fun e => e.1 == sid)).map (fun e => e.2.1)

/-- Remaining TTL of a stored session (the Redis `TTL` of its key). -/
def getSessionTTL (st : SessionStore) (sid : String) : Option Nat :=
  (st.entries.find? (fun e => e.1 == sid)).map (fun e => e.2.2)

/-- `RedisService.setSession`: `SETEX session:<id> SESSION_TTL data` — writes
the value and resets the TTL to the full window. -/
def setSession (st : SessionStore) (sid : String) (s : DocumentSession) : SessionStore :=
  if st.entries.any (fun e => e.1 == sid) then
    { entries := st.entries.map (fun e => if e.1 == sid then (sid, s, SESSION_TTL) else e) }
  else
    { entries := st.entries ++ [(sid, s, SESSION_TTL)] }

/-- `RedisService.refreshSession`: `EXPIRE` — resets the TTL of an existing
key and is a no-op on a missing key. -/
def refreshSessionTTL (st : SessionStore) (sid : String) : SessionStore :=
  { entries := st.entries.map (fun e => if e.1 == sid then (e.1, e.2.1, SESSION_TTL) else e) }

/-- Default sync settings applied by `createSession` when none are given. -/
def defaultSyncSettings : SyncSettings :=
  { syncScroll := true, syncPage := true, syncHighlight := true }

/-- Input of `SessionService.createSession`. -/
structure CreateSessionInput where
  documentId : String
  campaignId : String
  roomCode : String
  presenter : String
  syncSettings : Option SyncSettings
deriving DecidableEq

/-- `SessionService.createSession`: build the fresh session (empty viewers,
page 1, scroll 0, defaulted sync settings) and `setSession` it.  The fresh
UUID and the clock are passed in explicitly. -/
def createSession (st : SessionStore) (newSessionId : String) (now : String)
    (input : CreateSessionInput) : DocumentSession × SessionStore :=
  let session : DocumentSession :=
    { sessionId := newSessionId
      documentId := input.documentId
      campaignId := input.campaignId
      roomCode := input.roomCode
      presenter := input.presenter
      viewers := []
      currentPage := 1
      scrollPosition := 0
      activeHighlights := []
      syncSettings :=
        match input.syncSettings with
        | some s => s
        | none => defaultSyncSettings
      startedAt := now
      lastActivity := now }
  (session, setSession st newSessionId session)

/-- `SessionService.addViewer`: load the session (none when absent); if the
viewer is already present, return the session as is without writing back;
otherwise push the viewer and `updateSession` (stamp `lastActivity`, then
`setSession`, which resets the TTL). -/
def addViewer (st : SessionStore) (now : String) (sid : String) (uid : String) :
    Option DocumentSession × SessionStore :=
  match getSession st sid with
  | none => (none, st)
  | some s =>
    if uid ∈ s.viewers then
      (some s, st)
    else
      let s2 := { s with viewers := s.viewers ++ [uid], lastActivity := now }
      (some s2, setSession st s2.sessionId s2)

/-- `SessionService.removeViewer`: load the session (none when absent),
filter the viewer out, and write back through `updateSession`. -/
def removeViewer (st : SessionStore) (now : String) (sid : String) (uid : String) :
    Option DocumentSession × SessionStore :=
  match getSession st sid with
  | none => (none, st)
  | some s =>
    let s2 := { s with viewers := s.viewers.filter (fun i => i != uid), lastActivity := now }
    (some s2, setSession st s2.sessionId s2)

/-- `SessionService.updatePage`: set `currentPage` and write back. -/
def updatePage (st : SessionStore) (now : String) (sid : String) (page : Nat) :
    Option DocumentSession × SessionStore :=
  match getSession st sid with
  | none => (none, st)
  | some s =>
    let s2 := { s with currentPage := page, lastActivity := now }
    (some s2, setSession st s2.sessionId s2)

/-- `SessionService.updateScroll`: set `scrollPosition` and write back. -/
def updateScroll (st : SessionStore) (now : String) (sid : String) (position : Int) :
    Option DocumentSession × SessionStore :=
  match getSession st sid with
  | none => (none, st)
  | some s =>
    let s2 := { s with scrollPosition := position, lastActivity := now }
    (some s2, setSession st s2.sessionId s2)

/-- Partial sync-settings patch of `updateSyncSettings`. -/
structure SyncSettingsPatch where
  syncScroll : Option Bool
  syncPage : Option Bool
  syncHighlight : Option Bool
deriving DecidableEq

/-- Merge a partial patch into existing sync settings (object spread). -/
def mergeSyncSettings (s : SyncSettings) (p : SyncSettingsPatch) : SyncSettings :=
  { syncScroll := p.syncScroll.getD s.syncScroll
    syncPage := p.syncPage.getD s.syncPage
    syncHighlight := p.syncHighlight.getD s.syncHighlight }

/-- `SessionService.updateSyncSettings`: merge the patch and write back. -/
def updateSyncSettings (st : SessionStore) (now : String) (sid : String)
    (patch : SyncSettingsPatch) : Option DocumentSession × SessionStore :=
  match getSession st sid with
  | none => (none, st)
  | some s =>
    let s2 := { s with syncSettings := mergeSyncSettings s.syncSettings patch,
                       lastActivity := now }
    (some s2, setSession st s2.sessionId s2)

/-! Realtime gateway (`websocket/server.ts` and the handler modules).
A live socket is identified by its `cid`; `isOpen` models
`readyState === WebSocket.OPEN`.  Outbound traffic is modelled as the list
of `send` calls the handler performs. -/

/-- A live connection: identity, the session/user it joined (if any), and
whether the underlying transport is in the OPEN state. -/
structure Conn where
  cid : Nat
  sessionId : Option String
  userId : Option String
  isOpen : Bool
deriving DecidableEq

/-- The gateway's `clients` map: session id to the connections in the room. -/
abbrev ClientsMap := List (String × List Conn)

/-- An outbound message at the granularity the claims need: either the
generic `error` event, or a typed event (join/leave/navigation/...). -/
inductive SendMsg where
  | errorMsg
  | event (typeName : String)
deriving DecidableEq

/-- One `send` call: recipient connection and message. -/
structure Send where
  dest : Nat
  msg : SendMsg
deriving DecidableEq

/-- The `error` event sent to the originating connection only. -/
def errTo (ws : Conn) : List Send := [{ dest := ws.cid, msg := SendMsg.errorMsg }]

/-- `DocumentWebSocketServer.broadcast`: send to every connection of the
session except the excluded one, silently skipping connections whose
transport is not OPEN. -/
def broadcast (clients : ClientsMap) (sid : String) (typeName : String)
    (excl : Option Nat) : List Send :=
  match clients.find? (fun e => e.1 == sid) with
  | none => []
  | some e =>
    (e.2.filter (fun c =>
        (match excl with
         | some x => c.cid != x
         | none => true) && c.isOpen)).map
      (fun c => { dest := c.cid, msg := SendMsg.event typeName })

/-- Connections currently registered for a session in a clients map. -/
def connsOf (clients : ClientsMap) (sid : String) : List Conn :=
  match clients.find? (fun e => e.1 == sid) with
  | none => []
  | some e => e.2

/-- `PageChangePayloadSchema`-shaped data. -/
structure PageChangePayload where
  sessionId : String
  page : Nat
deriving DecidableEq

/-- `ScrollSyncPayloadSchema`-shaped data. -/
structure ScrollSyncPayload where
  sessionId : String
  position : Int
deriving DecidableEq

/-- `PushPagePayloadSchema`-shaped data. -/
structure PushPagePayload where
  sessionId : String
  page : Nat
deriving DecidableEq

/-- `PushReferencePayloadSchema`-shaped data. -/
structure PushReferencePayload where
  sessionId : String
  referenceId : String
deriving DecidableEq

/-- `SessionJoinPayloadSchema`-shaped data. -/
structure SessionJoinPayload where
  sessionId : String
  userId : String
deriving DecidableEq

/-- `SessionLeavePayloadSchema`-shaped data. -/
structure SessionLeavePayload where
  sessionId : String
deriving DecidableEq

/-- `SessionUpdateSettingsPayloadSchema`-shaped data. -/
structure SessionUpdateSettingsPayload where
  sessionId : String
  patch : SyncSettingsPatch
deriving DecidableEq

/-- `AnnotationCreatePayloadSchema`-shaped data, restricted to the fields the
model tracks. -/
structure AnnotationCreatePayload where
  sessionId : String
  documentId : String
  userId : String
  pageNumber : Nat
  content : String
deriving DecidableEq

/-- `AnnotationUpdatePayloadSchema`-shaped data. -/
structure AnnotationUpdatePayload where
  sessionId : String
  annotationId : String
  newContent : Option String
deriving DecidableEq

/-- `AnnotationDeletePayloadSchema`-shaped data. -/
structure AnnotationDeletePayload where
  sessionId : String
  annotationId : String
deriving DecidableEq

/-- A `documentAnnotation` row, restricted to the fields the model tracks. -/
structure AnnotationRow where
  id : String
  documentId : String
  userId : String
  pageNumber : Nat
  content : String
deriving DecidableEq

/-- `handlePageChange` (`navigation.handler.ts`): schema failure is caught
and answered with an error to the sender; a missing session likewise; on
success the `page:changed` broadcast (excluding the sender) is gated on the
session's `syncPage` flag. -/
def handlePageChange (st : SessionStore) (clients : ClientsMap) (now : String)
    (ws : Conn) (data : Option PageChangePayload) : SessionStore × List Send :=
  match data with
  | none => (st, errTo ws)
  | some payload =>
    match updatePage st now payload.sessionId payload.page with
    | (none, st2) => (st2, errTo ws)
    | (some session, st2) =>
      if session.syncSettings.syncPage then
        (st2, broadcast clients payload.sessionId "page:changed" (some ws.cid))
      else
        (st2, [])

/-- `handleScrollSync` (`navigation.handler.ts`): as `handlePageChange`, with
the `scroll:synced` broadcast gated on `syncScroll`. -/
def handleScrollSync (st : SessionStore) (clients : ClientsMap) (now : String)
    (ws : Conn) (data : Option ScrollSyncPayload) : SessionStore × List Send :=
  match data with
  | none => (st, errTo ws)
  | some payload =>
    match updateScroll st now payload.sessionId payload.position with
    | (none, st2) => (st2, errTo ws)
    | (some session, st2) =>
      if session.syncSettings.syncScroll then
        (st2, broadcast clients payload.sessionId "scroll:synced" (some ws.cid))
      else
        (st2, [])

/-- `handlePushPage` (`push.handler.ts`): the `page:pushed` broadcast
(excluding the sender) is unconditional — no sync-settings gate. -/
def handlePushPage (st : SessionStore) (clients : ClientsMap) (now : String)
    (ws : Conn) (data : Option PushPagePayload) : SessionStore × List Send :=
  match data with
  | none => (st, errTo ws)
  | some payload =>
    match updatePage st now payload.sessionId payload.page with
    | (none, st2) => (st2, errTo ws)
    | (some _, st2) =>
      (st2, broadcast clients payload.sessionId "page:pushed" (some ws.cid))

/-- `handlePushReference` (`push.handler.ts`): reads the session without
mutating it, then broadcasts `reference:pushed` unconditionally. -/
def handlePushReference (st : SessionStore) (clients : ClientsMap)
    (ws : Conn) (data : Option PushReferencePayload) : SessionStore × List Send :=
  match data with
  | none => (st, errTo ws)
  | some payload =>
    match getSession st payload.sessionId with
    | none => (st, errTo ws)
    | some _ =>
      (st, broadcast clients payload.sessionId "reference:pushed" (some ws.cid))

/-- `handleSessionCreate` (`session.handler.ts`): create the session and
answer `session:created` to the creator only; schema failure is caught and
answered with an error to the sender. -/
def handleSessionCreate (st : SessionStore) (newSessionId : String) (now : String)
    (ws : Conn) (data : Option CreateSessionInput) : SessionStore × List Send :=
  match data with
  | none => (st, errTo ws)
  | some payload =>
    let r := createSession st newSessionId now payload
    (r.2, [{ dest := ws.cid, msg := SendMsg.event "session:created" }])

/-- `handleSessionJoin` (`session.handler.ts`): `addViewer`; a missing
session is answered with an error to the sender; on success the joining user
gets the session state and the rest of the room a `session:joined`
broadcast (sender excluded). -/
def handleSessionJoinMsg (st : SessionStore) (clients : ClientsMap) (now : String)
    (ws : Conn) (data : Option SessionJoinPayload) : SessionStore × List Send :=
  match data with
  | none => (st, errTo ws)
  | some payload =>
    match addViewer st now payload.sessionId payload.userId with
    | (none, st2) => (st2, errTo ws)
    | (some _, st2) =>
      (st2, { dest := ws.cid, msg := SendMsg.event "session:joined" } ::
            broadcast clients payload.sessionId "session:joined" (some ws.cid))

/-- `handleSessionLeave` (`session.handler.ts`): requires the connection's
user id; `removeViewer`, then a `session:left` broadcast (no exclusion) when
the session existed, silence when it did not. -/
def handleSessionLeave (st : SessionStore) (clients : ClientsMap) (now : String)
    (ws : Conn) (userId : Option String) (data : Option SessionLeavePayload) :
    SessionStore × List Send :=
  match data with
  | none => (st, errTo ws)
  | some payload =>
    match userId with
    | none => (st, errTo ws)
    | some uid =>
      match removeViewer st now payload.sessionId uid with
      | (none, st2) => (st2, [])
      | (some _, st2) =>
        (st2, broadcast clients payload.sessionId "session:left" none)

/-- `handleSessionUpdateSettings` (`session.handler.ts`):
`updateSyncSettings`, then a `session:updated` broadcast (no exclusion). -/
def handleSessionUpdateSettings (st : SessionStore) (clients : ClientsMap)
    (now : String) (ws : Conn) (data : Option SessionUpdateSettingsPayload) :
    SessionStore × List Send :=
  match data with
  | none => (st, errTo ws)
  | some payload =>
    match updateSyncSettings st now payload.sessionId payload.patch with
    | (none, st2) => (st2, errTo ws)
    | (some _, st2) =>
      (st2, broadcast clients payload.sessionId "session:updated" none)

/-- `handleAnnotationCreate` (`annotation.handler.ts`): verify the session
exists, insert the annotation row (fresh id supplied by the caller), and
broadcast `annotation:created` to the whole room (no exclusion). -/
def handleAnnotationCreate (st : SessionStore) (clients : ClientsMap)
    (annDb : List AnnotationRow) (newId : String) (ws : Conn)
    (data : Option AnnotationCreatePayload) : List AnnotationRow × List Send :=
  match data with
  | none => (annDb, errTo ws)
  | some payload =>
    match getSession st payload.sessionId with
    | none => (annDb, errTo ws)
    | some _ =>
      let row : AnnotationRow :=
        { id := newId, documentId := payload.documentId, userId := payload.userId,
          pageNumber := payload.pageNumber, content := payload.content }
      (annDb ++ [row], broadcast clients payload.sessionId "annotation:created" none)

/-- `handleAnnotationUpdate` (`annotation.handler.ts`): verify session and
annotation exist (scoped errors otherwise), update the row, broadcast
`annotation:updated` to the whole room. -/
def handleAnnotationUpdate (st : SessionStore) (clients : ClientsMap)
    (annDb : List AnnotationRow) (ws : Conn)
    (data : Option AnnotationUpdatePayload) : List AnnotationRow × List Send :=
  match data with
  | none => (annDb, errTo ws)
  | some payload =>
    match getSession st payload.sessionId with
    | none => (annDb, errTo ws)
    | some _ =>
      if annDb.any (fun a => a.id == payload.annotationId) then
        (annDb.map (fun a =>
            if a.id == payload.annotationId then
              { a with content := payload.newContent.getD a.content }
            else a),
         broadcast clients payload.sessionId "annotation:updated" none)
      else
        (annDb, errTo ws)

/-- `handleAnnotationDelete` (`annotation.handler.ts`): verify session and
annotation exist, delete the row, broadcast `annotation:deleted`. -/
def handleAnnotationDelete (st : SessionStore) (clients : ClientsMap)
    (annDb : List AnnotationRow) (ws : Conn)
    (data : Option AnnotationDeletePayload) : List AnnotationRow × List Send :=
  match data with
  | none => (annDb, errTo ws)
  | some payload =>
    match getSession st payload.sessionId with
    | none => (annDb, errTo ws)
    | some _ =>
      if annDb.any (fun a => a.id == payload.annotationId) then
        (annDb.filter (fun a => a.id != payload.annotationId),
         broadcast clients payload.sessionId "annotation:deleted" none)
      else
        (annDb, errTo ws)

/-- The mutable state owned by the gateway process: the session keyspace, the
room membership map, and the annotation table. -/
structure Gateway where
  store : SessionStore
  clients : ClientsMap
  annotations : List AnnotationRow
deriving DecidableEq

/-- The `data` field of an inbound `{type, data}` message, classified by
which payload schema it validates: one constructor per recognized payload
shape, plus `malformed` for data validating none of them. -/
inductive InData where
  | sessionCreate (p : CreateSessionInput)
  | sessionJoin (p : SessionJoinPayload)
  | sessionLeave (p : SessionLeavePayload)
  | sessionUpdateSettings (p : SessionUpdateSettingsPayload)
  | pageChange (p : PageChangePayload)
  | scrollSync (p : ScrollSyncPayload)
  | pushPage (p : PushPagePayload)
  | pushReference (p : PushReferencePayload)
  | annotationCreate (p : AnnotationCreatePayload)
  | annotationUpdate (p : AnnotationUpdatePayload)
  | annotationDelete (p : AnnotationDeletePayload)
  | malformed
deriving DecidableEq

/-- `SessionCreatePayloadSchema.parse` on the routed data. -/
def InData.asSessionCreate : InData → Option CreateSessionInput
  | .sessionCreate p => some p
  | _ => none

/-- `SessionJoinPayloadSchema.parse` on the routed data. -/
def InData.asSessionJoin : InData → Option SessionJoinPayload
  | .sessionJoin p => some p
  | _ => none

/-- `SessionLeavePayloadSchema.parse` on the routed data. -/
def InData.asSessionLeave : InData → Option SessionLeavePayload
  | .sessionLeave p => some p
  | _ => none

/-- `SessionUpdateSettingsPayloadSchema.parse` on the routed data. -/
def InData.asSessionUpdateSettings : InData → Option SessionUpdateSettingsPayload
  | .sessionUpdateSettings p => some p
  | _ => none

/-- `PageChangePayloadSchema.parse` on the routed data. -/
def InData.asPageChange : InData → Option PageChangePayload
  | .pageChange p => some p
  | _ => none

/-- `ScrollSyncPayloadSchema.parse` on the routed data. -/
def InData.asScrollSync : InData → Option ScrollSyncPayload
  | .scrollSync p => some p
  | _ => none

/-- `PushPagePayloadSchema.parse` on the routed data. -/
def InData.asPushPage : InData → Option PushPagePayload
  | .pushPage p => some p
  | _ => none

/-- `PushReferencePayloadSchema.parse` on the routed data. -/
def InData.asPushReference : InData → Option PushReferencePayload
  | .pushReference p => some p
  | _ => none

/-- `AnnotationCreatePayloadSchema.parse` on the routed data. -/
def InData.asAnnotationCreate : InData → Option AnnotationCreatePayload
  | .annotationCreate p => some p
  | _ => none

/-- `AnnotationUpdatePayloadSchema.parse` on the routed data. -/
def InData.asAnnotationUpdate : InData → Option AnnotationUpdatePayload
  | .annotationUpdate p => some p
  | _ => none

/-- `AnnotationDeletePayloadSchema.parse` on the routed data. -/
def InData.asAnnotationDelete : InData → Option AnnotationDeletePayload
  | .annotationDelete p => some p
  | _ => none

/-- An inbound frame: either `JSON.parse` / `WSMessageSchema.parse` fails on
it, or it carries a type string and data. -/
inductive InMessage where
  | unparseable
  | message (typeName : String) (data : InData)
deriving DecidableEq

/-- The type strings the `switch` in `handleMessage` recognizes. -/
def recognizedTypes : List String :=
  ["doc:session:create", "doc:session:join", "doc:session:leave",
   "doc:session:update-settings", "doc:page:change", "doc:scroll:sync",
   "doc:push:page", "doc:push:reference", "doc:annotation:create",
   "doc:annotation:update", "doc:annotation:delete"]

/-- Register a connection in a room (`this.clients.get(sessionId).add(ws)`,
creating the room set on first join). -/
def addClient (clients : ClientsMap) (sid : String) (ws : Conn) : ClientsMap :=
  if clients.any (fun e => e.1 == sid) then
    clients.map (fun e => if e.1 == sid then (e.1, e.2 ++ [ws]) else e)
  else
    clients ++ [(sid, [ws])]

/-- Result of one `handleMessage` dispatch: the new gateway state, the sends
performed, and the (possibly join-mutated) connection. -/
structure MessageResult where
  gateway : Gateway
  out : List Send
  conn : Conn
deriving DecidableEq

/-- `DocumentWebSocketServer.handleMessage`: parse and validate the frame
(a failure is caught and answered with an error event to the sender), then
dispatch on the type string; the `default` arm answers an error event to the
sender.  The join arm additionally registers the connection in the room and
refreshes the session TTL (`server.handleJoin`); its registration step is
modelled for schema-valid payloads. -/
def handleMessage (g : Gateway) (now : String) (newId : String) (ws : Conn)
    (msg : InMessage) : MessageResult :=
  match msg with
  | .unparseable => { gateway := g, out := errTo ws, conn := ws }
  | .message t d =>
    if t == "doc:session:create" then
      let r := handleSessionCreate g.store newId now ws d.asSessionCreate
      { gateway := { g with store := r.1 }, out := r.2, conn := ws }
    else if t == "doc:session:join" then
      let r := handleSessionJoinMsg g.store g.clients now ws d.asSessionJoin
      match d.asSessionJoin with
      | some p =>
        let ws2 := { ws with sessionId := some p.sessionId, userId := some p.userId }
        { gateway := { g with store := refreshSessionTTL r.1 p.sessionId,
                              clients := addClient g.clients p.sessionId ws2 },
          out := r.2, conn := ws2 }
      | none =>
        { gateway := { g with store := r.1 }, out := r.2, conn := ws }
    else if t == "doc:session:leave" then
      let r := handleSessionLeave g.store g.clients now ws ws.userId d.asSessionLeave
      { gateway := { g with store := r.1 }, out := r.2, conn := ws }
    else if t == "doc:session:update-settings" then
      let r := handleSessionUpdateSettings g.store g.clients now ws
        d.asSessionUpdateSettings
      { gateway := { g with store := r.1 }, out := r.2, conn := ws }
    else if t == "doc:page:change" then
      let r := handlePageChange g.store g.clients now ws d.asPageChange
      { gateway := { g with store := r.1 }, out := r.2, conn := ws }
    else if t == "doc:scroll:sync" then
      let r := handleScrollSync g.store g.clients now ws d.asScrollSync
      { gateway := { g with store := r.1 }, out := r.2, conn := ws }
    else if t == "doc:push:page" then
      let r := handlePushPage g.store g.clients now ws d.asPushPage
      { gateway := { g with store := r.1 }, out := r.2, conn := ws }
    else if t == "doc:push:reference" then
      let r := handlePushReference g.store g.clients ws d.asPushReference
      { gateway := { g with store := r.1 }, out := r.2, conn := ws }
    else if t == "doc:annotation:create" then
      let r := handleAnnotationCreate g.store g.clients g.annotations newId ws
        d.asAnnotationCreate
      { gateway := { g with annotations := r.1 }, out := r.2, conn := ws }
    else if t == "doc:annotation:update" then
      let r := handleAnnotationUpdate g.store g.clients g.annotations ws
        d.asAnnotationUpdate
      { gateway := { g with annotations := r.1 }, out := r.2, conn := ws }
    else if t == "doc:annotation:delete" then
      let r := handleAnnotationDelete g.store g.clients g.annotations ws
        d.asAnnotationDelete
      { gateway := { g with annotations := r.1 }, out := r.2, conn := ws }
    else
      { gateway := g, out := errTo ws, conn := ws }

/-- Remove a connection from its room
(`sessionClients.delete(ws)`, deleting the room when it becomes empty). -/
def removeClient (clients : ClientsMap) (sid : String) (cidToRemove : Nat) :
    ClientsMap :=
  match clients.find? (fun e => e.1 == sid) with
  | none => clients
  | some e =>
    let remaining := e.2.filter (fun c => c.cid != cidToRemove)
    if remaining.isEmpty then
      clients.filter (fun e2 => e2.1 != sid)
    else
      clients.map (fun e2 => if e2.1 == sid then (e2.1, remaining) else e2)

/-- Result of `handleDisconnect`: new session keyspace and room map, the
`removeViewer(sessionId, userId)` call that was issued (if any), and the
sends performed. -/
structure DisconnectResult where
  store : SessionStore
  clients : ClientsMap
  removeViewerCall : Option (String × String)
  out : List Send
deriving DecidableEq

/-- `DocumentWebSocketServer.handleDisconnect`: if the connection had joined
a session, remove it from the room (dropping an emptied room), then — when a
user id is bound — fire the Session Registry `removeViewer` call (its
failure is caught and ignored: `removeViewerOk = false` leaves the keyspace
unchanged) and broadcast `session:left` to the remainder of the room.  The
room cleanup and the broadcast do not depend on the `removeViewer` outcome. -/
def handleDisconnect (st : SessionStore) (clients : ClientsMap) (now : String)
    (ws : Conn) (removeViewerOk : Bool) : DisconnectResult :=
  match ws.sessionId with
  | none => { store := st, clients := clients, removeViewerCall := none, out := [] }
  | some sid =>
    let clients2 := removeClient clients sid ws.cid
    match ws.userId with
    | none =>
      { store := st, clients := clients2, removeViewerCall := none, out := [] }
    | some uid =>
      let st2 := if removeViewerOk then (removeViewer st now sid uid).2 else st
      { store := st2, clients := clients2,
        removeViewerCall := some (sid, uid),
        out := broadcast clients2 sid "session:left" (some ws.cid) }

/-! Job queue.  The queue mechanics live in the BullMQ library, outside this
repository; what the repository contributes is the wiring.  Two `Queue`
instances exist for the same queue name: the doc-processor one
(`queue.service.ts`) is constructed with `defaultJobOptions` (`attempts: 3`,
exponential backoff, base delay 2000 ms) but no code adds jobs through it
(`index.ts` only creates the Worker); the doc-api one is constructed with
`{ connection }` only, and `enqueueDocumentProcessing` — the sole enqueue
path — adds every job through it.  In BullMQ the adding Queue instance's
`defaultJobOptions` are attached to the job at `add` time, so
repository-enqueued jobs carry no retry options. -/

/-- Modelled from the spec: the job lifecycle state
(waiting | active | completed | failed) of section 3, with the waiting state
carrying the earliest lease time produced by any backoff delay. -/
inductive JobState where
  | waiting (availableAt : Nat)
  | active
  | completed
  | failed
deriving DecidableEq

/-- The retry-relevant job options BullMQ attaches to a job at `add` time
from the adding Queue instance's `defaultJobOptions`.  An absent `attempts`
is BullMQ's default of a single attempt; `backoffDelayMs` is the base delay
of the exponential backoff. -/
structure JobOptions where
  attempts : Option Nat
  backoffDelayMs : Option Nat
deriving DecidableEq

/-- `defaultJobOptions` of the doc-processor Queue instance
(`queue.service.ts`): `attempts: 3`, exponential backoff, base 2000 ms.
No repository code adds jobs through this instance. -/
def processorQueueJobOptions : JobOptions :=
  { attempts := some 3, backoffDelayMs := some 2000 }

/-- The doc-api Queue instance (the queue service used by
`enqueueDocumentProcessing`) is constructed with `{ connection }` only:
it has no `defaultJobOptions`, so the jobs it adds carry no retry options. -/
def apiQueueJobOptions : JobOptions :=
  { attempts := none, backoffDelayMs := none }

/-- One queued job: id, payload (document id), the options attached at `add`
time, the attempt count, and the lifecycle state. -/
structure QueuedJob where
  jobId : Nat
  documentId : String
  opts : JobOptions
  attemptsMade : Nat
  state : JobState
deriving DecidableEq

/-- Modelled from the spec: the queue — jobs in enqueue (FIFO) order plus
the next fresh job id. -/
structure JobQueue where
  jobs : List QueuedJob
  nextId : Nat
deriving DecidableEq

/-- The empty queue. -/
def emptyQueue : JobQueue := { jobs := [], nextId := 0 }

/-- Modelled from the spec: `Queue.add` appends a fresh waiting job
(attempt count 0, available immediately), attaching the adding Queue
instance's default job options. -/
def addJob (q : JobQueue) (defaults : JobOptions) (documentId : String)
    (now : Nat) : Nat × JobQueue :=
  (q.nextId,
   { jobs := q.jobs ++ [{ jobId := q.nextId, documentId := documentId,
                          opts := defaults, attemptsMade := 0,
                          state := JobState.waiting now }],
     nextId := q.nextId + 1 })

/-- `enqueueDocumentProcessing(documentId)` (doc-api queue service): add a
`process-document` job through the doc-api Queue instance, so the job is
attached that instance's (absent) default job options. -/
def enqueueDocumentProcessing (q : JobQueue) (documentId : String)
    (now : Nat) : Nat × JobQueue :=
  addJob q apiQueueJobOptions documentId now

/-- A job is leasable at time `now` when it is waiting and its backoff delay
has elapsed. -/
def leasable (now : Nat) (j : QueuedJob) : Bool :=
  match j.state with
  | JobState.waiting t => decide (t ≤ now)
  | _ => false

/-- Modelled from the spec: `lease() -> optional Job` returns the oldest
waiting job whose delay has elapsed, transitioning it to active. -/
def lease (q : JobQueue) (now : Nat) : Option Nat × JobQueue :=
  match q.jobs.find? (leasable now) with
  | none => (none, q)
  | some j =>
    (some j.jobId,
     { q with jobs := q.jobs.map (fun x =>
         if x.jobId == j.jobId then { x with state := JobState.active } else x) })

/-- Modelled from the spec: `complete(jobId)` finishes an active job. -/
def completeJob (q : JobQueue) (jobId : Nat) : JobQueue :=
  { q with jobs := q.jobs.map (fun x =>
      if x.jobId == jobId && x.state == JobState.active then
        { x with state := JobState.completed }
      else x) }

/-- Modelled from the spec: the effect of one `fail` on the failing job,
parameterized by the job's own attached options — increment the attempt
count; while it is below the job's configured attempts, re-enqueue as
waiting after the exponential backoff delay, otherwise mark terminally
failed.  A job without an `attempts` option has BullMQ's default of a
single attempt, so its first failure is terminal. -/
def failTransition (now : Nat) (x : QueuedJob) : QueuedJob :=
  if x.attemptsMade + 1 < (x.opts.attempts).getD 1 then
    { x with attemptsMade := x.attemptsMade + 1,
             state := JobState.waiting
               (now + (x.opts.backoffDelayMs).getD 0 * 2 ^ (x.attemptsMade + 1)) }
  else
    { x with attemptsMade := x.attemptsMade + 1, state := JobState.failed }

/-- Modelled from the spec: `fail(jobId, reason)` applies `failTransition`
to the named active job. -/
def failJob (q : JobQueue) (jobId : Nat) (now : Nat) : JobQueue :=
  { q with jobs := q.jobs.map (fun x =>
      if x.jobId == jobId && x.state == JobState.active then failTransition now x
      else x) }

/-- Look a job up by id. -/
def lookupJob (q : JobQueue) (jobId : Nat) : Option QueuedJob :=
  q.jobs.find? (fun j => j.jobId == jobId)

/-! Concrete fixtures used by witnesses and counterexamples. -/

/-- Fixture environment: every upload hashes to `"h1"`. -/
def c1Env : WorkerEnv :=
  { nowIso := "2026-02-03T04:05:06Z"
    s3Download := fun _ => "raw-bytes"
    sha256 := fun _ => "h1"
    pdfExtract := fun _ => ("", 0)
    mdExtract := fun _ => ""
    mdHeadings := fun _ => []
    makeThumbnail := fun _ => ""
    elasticIndex := fun _ => "idx-1"
    extractEntities := fun _ => [] }

/-- Fixture: the earlier upload, hash already stored. -/
def c1DocA : StoredDocument :=
  { id := "doc-1", format := "pdf", storageKey := "k1",
    contentHash := some "h1", ocrStatus := "completed",
    metadata := DocMetadata.empty, uploadedAt := 1, pageCount := 3,
    thumbnailKey := none, searchIndex := none }

/-- Fixture: the later, byte-identical upload about to be processed. -/
def c1DocB : StoredDocument :=
  { id := "doc-2", format := "pdf", storageKey := "k2",
    contentHash := none, ocrStatus := "pending",
    metadata := DocMetadata.empty, uploadedAt := 2, pageCount := 0,
    thumbnailKey := none, searchIndex := none }

/-- Fixture document table for the duplicate short-circuit. -/
def c1Db : DocumentDb := [c1DocA, c1DocB]

/-- Fixture queue: one job enqueued through `enqueueDocumentProcessing` and
leased (now active). -/
def c2Queue : JobQueue :=
  (lease (enqueueDocumentProcessing emptyQueue "doc-1" 0).2 0).2

/-- Fixture: the active job inside `c2Queue`, carrying the doc-api Queue
instance's (absent) default job options. -/
def c2Job : QueuedJob :=
  { jobId := 0, documentId := "doc-1", opts := apiQueueJobOptions,
    attemptsMade := 0, state := JobState.active }

/-- Fixture session whose viewer set already contains `"u1"`. -/
def c3Session : DocumentSession :=
  { sessionId := "s1", documentId := "d1", campaignId := "c1", roomCode := "r1",
    presenter := "p1", viewers := ["u1"], currentPage := 1, scrollPosition := 0,
    activeHighlights := [], syncSettings := defaultSyncSettings,
    startedAt := "t0", lastActivity := "t0" }

/-- Fixture store: `c3Session` stored with a partly decayed TTL of 100 s. -/
def c3Store : SessionStore := { entries := [("s1", c3Session, 100)] }

/-- Fixture: earlier upload sharing hash `"h"`. -/
def c4DocA : StoredDocument :=
  { id := "a", format := "pdf", storageKey := "ka",
    contentHash := some "h", ocrStatus := "completed",
    metadata := DocMetadata.empty, uploadedAt := 1, pageCount := 1,
    thumbnailKey := none, searchIndex := none }

/-- Fixture: later upload sharing hash `"h"`. -/
def c4DocB : StoredDocument :=
  { id := "b", format := "pdf", storageKey := "kb",
    contentHash := some "h", ocrStatus := "completed",
    metadata := DocMetadata.empty, uploadedAt := 2, pageCount := 1,
    thumbnailKey := none, searchIndex := none }

/-- Fixture table in a storage order that disagrees with upload order: the
later upload `"b"` is scanned first. -/
def c4DbStorage : DocumentDb := [c4DocB, c4DocA]

/-- Fixture session with page sync off and scroll sync on. -/
def c5Session : DocumentSession :=
  { sessionId := "s1", documentId := "d1", campaignId := "c1", roomCode := "r1",
    presenter := "p1", viewers := ["u1", "u2"], currentPage := 1,
    scrollPosition := 0, activeHighlights := [],
    syncSettings := { syncScroll := true, syncPage := false, syncHighlight := true },
    startedAt := "t0", lastActivity := "t0" }

/-- Fixture store holding `c5Session`. -/
def c5Store : SessionStore := { entries := [("s1", c5Session, SESSION_TTL)] }

/-- Fixture: the originating connection. -/
def c5Ws : Conn := { cid := 1, sessionId := some "s1", userId := some "u1", isOpen := true }

/-- Fixture: another open connection in the room. -/
def c5Other : Conn := { cid := 2, sessionId := some "s1", userId := some "u2", isOpen := true }

/-- Fixture clients map with the two connections in session `"s1"`. -/
def c5Clients : ClientsMap := [("s1", [c5Ws, c5Other])]

/-- Fixture gateway for the scoped-error witness. -/
def c7Gateway : Gateway := { store := { entries := [] }, clients := [], annotations := [] }

/-- Fixture: an idle connection for the scoped-error witness. -/
def c7Ws : Conn := { cid := 7, sessionId := none, userId := none, isOpen := true }

/-- Fixture: the joined connection that will disconnect. -/
def c8Ws : Conn := { cid := 1, sessionId := some "s1", userId := some "u1", isOpen := true }

/-- Fixture: the connection that stays behind. -/
def c8Other : Conn := { cid := 2, sessionId := some "s1", userId := some "u2", isOpen := true }

/-- Fixture clients map for the disconnect scenario. -/
def c8Clients : ClientsMap := [("s1", [c8Ws, c8Other])]

/-- Fixture session for the disconnect scenario. -/
def c8Session : DocumentSession :=
  { sessionId := "s1", documentId := "d1", campaignId := "c1", roomCode := "r1",
    presenter := "p1", viewers := ["u1", "u2"], currentPage := 1,
    scrollPosition := 0, activeHighlights := [], syncSettings := defaultSyncSettings,
    startedAt := "t0", lastActivity := "t0" }

/-- Fixture store for the disconnect scenario. -/
def c8Store : SessionStore := { entries := [("s1", c8Session, SESSION_TTL)] }

/-! Theorems.  Shared helper lemmas come first, then one theorem per claim
(with its witness or counterexample where required). -/

/-- Reading after one append yields the old reading plus the stored (possibly
timestamp-defaulted) entry at the end. -/
theorem getLogs_addLog (store : LogStore) (now : String) (log : ProcessingLog) :
    getLogs (addLog store now log) =
      getLogs store ++ [JsVal.obj (withDefaultTimestamp now log)] := by
  simp [getLogs, addLog, jsParse, JsVal.truthy]

/-- Reading after a sequence of appends is the old reading followed by the
stored entries in append order. -/
theorem getLogs_appendAll (entries : List (String × ProcessingLog)) (store : LogStore) :
    getLogs (appendAll store entries) =
      getLogs store ++ entries.map (fun p => JsVal.obj (withDefaultTimestamp p.1 p.2)) := by
  induction entries generalizing store with
  | nil => simp [appendAll]
  | cons p ps ih =>
    have h1 : appendAll store (p :: ps) = appendAll (addLog store p.1 p.2) ps := rfl
    rw [h1, ih, getLogs_addLog]
    simp

/-- C6 (corrected).  Reading a job's log returns the appended entries in
append order (oldest first), except that `addLog` replaces a falsy (empty)
timestamp with the append-time clock value: an entry appended with an empty
timestamp is read back with the clock value instead.  Entries appended with
non-empty timestamps are returned exactly as appended. -/
theorem C6_log_read_returns_appended : ∀ entries : List (String × ProcessingLog),
    getLogs (appendAll [] entries) =
      entries.map (fun p => JsVal.obj (withDefaultTimestamp p.1 p.2)) := by
  intro entries
  rw [getLogs_appendAll]
  simp [getLogs]

/-- C6 counterexample.  An entry appended with an empty timestamp is not read
back exactly as appended: the read returns it with the append-time timestamp
filled in, refuting the claim as stated for this input. -/
theorem C6_counterexample :
    getLogs (appendAll [] [("2026-02-03T04:05:06Z",
        { timestamp := "", level := LogLevel.info, message := "m",
          step := none, details := none })]) ≠
      [JsVal.obj { timestamp := "", level := LogLevel.info, message := "m",
                   step := none, details := none }] := by
  decide

/-- C10 (corrected).  Reading a job's log is total (never throws): entries
that fail to parse are skipped, and so are entries parsing to falsy JSON
values — the result is exactly the truthy parseable entries, oldest first;
dropping the unparseable entries from the store does not change the result,
so a corrupt entry cannot make the log unreadable. -/
theorem C10_corrupt_entries_skipped (store : LogStore) :
    getLogs store = ((store.filterMap jsParse).filter JsVal.truthy).reverse ∧
    getLogs store = getLogs (store.filter (fun s => (jsParse s).isSome)) := by
  constructor
  · induction store with
    | nil => rfl
    | cons a t ih =>
      cases a with
      | json v =>
        cases v with
        | obj e => simp [getLogs, jsParse, JsVal.truthy] at *; simpa using ih
        | falsy => simp [getLogs, jsParse, JsVal.truthy] at *; simpa using ih
      | corrupt => simp [getLogs, jsParse] at *; simpa using ih
  · induction store with
    | nil => rfl
    | cons a t ih =>
      cases a with
      | json v =>
        cases v with
        | obj e => simp [getLogs, jsParse, JsVal.truthy] at *; simpa using ih
        | falsy => simp [getLogs, jsParse, JsVal.truthy] at *; simpa using ih
      | corrupt => simp [getLogs, jsParse] at *; simpa using ih

/-- C10 counterexample.  A stored string that is valid JSON but parses to a
falsy value (for example the string `"0"`) is parseable yet skipped by
`filter(Boolean)`: the read result differs from "exactly the parseable
entries, oldest first" at this store. -/
theorem C10_counterexample :
    getLogs [StoredString.json JsVal.falsy] ≠
      ([StoredString.json JsVal.falsy].filterMap jsParse).reverse := by
  decide

/-- The head of a `dropWhile` result fails the predicate. -/
theorem dropWhile_head_false {α : Type} {p : α → Bool} {l : List α} {x : α}
    {xs : List α} (h : l.dropWhile p = x :: xs) : p x = false := by
  have h2 := List.head?_dropWhile_not p l
  rw [h] at h2
  simpa using h2

/-- A nonempty suffix determines the last element. -/
theorem getLast?_of_suffix {α : Type} {s l : List α} (hs : s <:+ l) (hne : s ≠ []) :
    l.getLast? = s.getLast? := by
  obtain ⟨t, rfl⟩ := hs
  exact List.getLast?_append_of_ne_nil t hne

/-- Evaluation of `countTokens` on an all-whitespace (or empty) list. -/
theorem countTokens_of_dropWhile_nil {l : List Char} (h : l.dropWhile wsChar = []) :
    countTokens l = 0 := by
  conv_lhs => unfold countTokens
  split
  · rfl
  · next x rest heq => rw [h] at heq; simp at heq

/-- Evaluation of `countTokens` when a token head is found. -/
theorem countTokens_of_dropWhile_cons {l : List Char} {x : Char} {rest : List Char}
    (h : l.dropWhile wsChar = x :: rest) :
    countTokens l = 1 + countTokens (rest.dropWhile (fun c => !wsChar c)) := by
  conv_lhs => unfold countTokens
  split
  · next heq => rw [h] at heq; simp at heq
  · next y ys heq =>
    rw [h] at heq
    injection heq with h1 h2
    rw [h2]

/-- Evaluation of `jsSplitWs` when the input is a single token (or empty). -/
theorem jsSplitWs_of_drop_nil {l : List Char}
    (h : l.dropWhile (fun c => !wsChar c) = []) :
    jsSplitWs l = [l.takeWhile (fun c => !wsChar c)] := by
  conv_lhs => unfold jsSplitWs
  split
  · rfl
  · next x rest heq => rw [h] at heq; simp at heq

/-- Evaluation of `jsSplitWs` when a whitespace cut is found. -/
theorem jsSplitWs_of_drop_cons {l : List Char} {x : Char} {rest : List Char}
    (h : l.dropWhile (fun c => !wsChar c) = x :: rest) :
    jsSplitWs l =
      l.takeWhile (fun c => !wsChar c) :: jsSplitWs (rest.dropWhile wsChar) := by
  conv_lhs => unfold jsSplitWs
  split
  · next heq => rw [h] at heq; simp at heq
  · next y ys heq =>
    rw [h] at heq
    injection heq with h1 h2
    rw [h2]

/-- The trimmed string has no trailing whitespace. -/
theorem jsTrim_noTrailWs (l : List Char) : noTrailWs (jsTrim l) := by
  intro c hc
  unfold jsTrim at hc
  rw [List.getLast?_reverse] at hc
  cases hB : (l.dropWhile wsChar).reverse.dropWhile wsChar with
  | nil => rw [hB] at hc; simp at hc
  | cons x xs =>
    rw [hB] at hc
    simp at hc
    rw [hc] at hB
    exact dropWhile_head_false hB

/-- The trimmed string has no leading whitespace. -/
theorem jsTrim_noLeadWs (l : List Char) : noLeadWs (jsTrim l) := by
  intro c hc
  unfold jsTrim at hc
  rw [List.head?_reverse] at hc
  cases hB : (l.dropWhile wsChar).reverse.dropWhile wsChar with
  | nil => rw [hB] at hc; simp at hc
  | cons x xs =>
    rw [hB] at hc
    have hsuf : (l.dropWhile wsChar).reverse.dropWhile wsChar <:+
        (l.dropWhile wsChar).reverse := List.dropWhile_suffix _
    rw [hB] at hsuf
    have hlast : (l.dropWhile wsChar).reverse.getLast? = (x :: xs).getLast? :=
      getLast?_of_suffix hsuf (by simp)
    rw [List.getLast?_reverse] at hlast
    rw [← hlast] at hc
    cases hA : l.dropWhile wsChar with
    | nil => rw [hA] at hc; simp at hc
    | cons a as =>
      rw [hA] at hc
      simp at hc
      rw [hc] at hA
      exact dropWhile_head_false hA

/-- On a nonempty string with neither leading nor trailing whitespace, the
number of `/\s+/` chunks equals the number of whitespace-separated tokens. -/
theorem jsSplitWs_length_eq_countTokens :
    ∀ (n : Nat) (l : List Char), l.length ≤ n → l ≠ [] → noLeadWs l →
      noTrailWs l → (jsSplitWs l).length = countTokens l := by
  intro n
  induction n with
  | zero =>
    intro l hl hne _ _
    cases l with
    | nil => exact absurd rfl hne
    | cons c t => simp at hl
  | succ n ih =>
    intro l hl hne hlead htrail
    obtain ⟨c, t, rfl⟩ : ∃ c t, l = c :: t := by
      cases l with
      | nil => exact absurd rfl hne
      | cons c t => exact ⟨c, t, rfl⟩
    have hc : wsChar c = false := hlead c (by simp)
    have hcount1 : countTokens (c :: t) =
        1 + countTokens (t.dropWhile (fun c => !wsChar c)) :=
      countTokens_of_dropWhile_cons (List.dropWhile_cons_of_neg (by simp [hc]))
    have hdropnw : (c :: t).dropWhile (fun c => !wsChar c) =
        t.dropWhile (fun c => !wsChar c) :=
      List.dropWhile_cons_of_pos (by simp [hc])
    cases hD : t.dropWhile (fun c => !wsChar c) with
    | nil =>
      have hsplit : jsSplitWs (c :: t) = [(c :: t).takeWhile (fun c => !wsChar c)] :=
        jsSplitWs_of_drop_nil (by rw [hdropnw, hD])
      have h0 : countTokens ([] : List Char) = 0 := countTokens_of_dropWhile_nil rfl
      rw [hsplit, hcount1, hD, h0]
      simp
    | cons y r =>
      have hy := @dropWhile_head_false Char (fun c => !wsChar c) t y r hD
      have hyws : wsChar y = true := by simpa using hy
      have hsplit : jsSplitWs (c :: t) =
          (c :: t).takeWhile (fun c => !wsChar c) :: jsSplitWs (r.dropWhile wsChar) :=
        jsSplitWs_of_drop_cons (by rw [hdropnw, hD])
      have hsufD : (y :: r) <:+ (c :: t) := by
        have h1 : t.dropWhile (fun c => !wsChar c) <:+ t := List.dropWhile_suffix _
        rw [hD] at h1
        exact h1.trans (List.suffix_cons c t)
      cases hL2 : r.dropWhile wsChar with
      | nil =>
        exfalso
        have hallyr : ∀ z ∈ y :: r, wsChar z = true := by
          intro z hz
          rcases List.mem_cons.mp hz with hz1 | hz2
          · rw [hz1]; exact hyws
          · exact List.dropWhile_eq_nil_iff.mp hL2 z hz2
        have hlast : (c :: t).getLast? = (y :: r).getLast? :=
          getLast?_of_suffix hsufD (by simp)
        have hgl : (y :: r).getLast? = some ((y :: r).getLast (by simp)) :=
          List.getLast?_eq_getLast (y :: r) (by simp)
        have hmem : (y :: r).getLast (by simp) ∈ y :: r := List.getLast_mem _
        have hwsz : wsChar ((y :: r).getLast (by simp)) = true := hallyr _ hmem
        have hfalse : wsChar ((y :: r).getLast (by simp)) = false := by
          apply htrail
          rw [hlast, hgl]
          rfl
        rw [hwsz] at hfalse
        cases hfalse
      | cons z w =>
        have hz : wsChar z = false := dropWhile_head_false hL2
        have hcountD : countTokens (y :: r) =
            1 + countTokens (w.dropWhile (fun c => !wsChar c)) := by
          apply countTokens_of_dropWhile_cons
          rw [List.dropWhile_cons_of_pos hyws, hL2]
        have hcountL2 : countTokens (z :: w) =
            1 + countTokens (w.dropWhile (fun c => !wsChar c)) := by
          apply countTokens_of_dropWhile_cons
          exact List.dropWhile_cons_of_neg (by simp [hz])
        have hsufL2 : (z :: w) <:+ (c :: t) := by
          have h1 : r.dropWhile wsChar <:+ r := List.dropWhile_suffix _
          rw [hL2] at h1
          exact (h1.trans (List.suffix_cons y r)).trans hsufD
        have hlenD : (y :: r).length ≤ t.length := by
          have h1 : (t.dropWhile (fun c => !wsChar c)).length ≤ t.length :=
            (List.dropWhile_sublist _).length_le
          rw [hD] at h1
          exact h1
        have hlenL2 : (z :: w).length ≤ r.length := by
          have h1 : (r.dropWhile wsChar).length ≤ r.length :=
            (List.dropWhile_sublist _).length_le
          rw [hL2] at h1
          exact h1
        have hlen : (z :: w).length ≤ n := by
          simp only [List.length_cons] at hl hlenD hlenL2 ⊢
          omega
        have htrailL2 : noTrailWs (z :: w) := by
          intro u hu
          apply htrail
          rw [getLast?_of_suffix hsufL2 (by simp)]
          exact hu
        have hleadL2 : noLeadWs (z :: w) := by
          intro u hu
          simp at hu
          rw [← hu]
          exact hz
        have hih := ih (z :: w) hlen (by simp) hleadL2 htrailL2
        rw [hsplit, hcount1, hD, hcountD, hL2, ← hcountL2, ← hih]
        simp only [List.length_cons]
        omega

/-- C9 (confirmed).  `isImageBasedPage(text)` returns true exactly when the
trimmed text has fewer than 50 characters or fewer than 10
whitespace-separated tokens; in particular it returns true on the empty
string and on whitespace-only strings. -/
theorem C9_isImageBasedPage_iff :
    (∀ s : List Char, isImageBasedPage s = true ↔
        ((jsTrim s).length < 50 ∨ countTokens (jsTrim s) < 10)) ∧
    isImageBasedPage [] = true ∧
    isImageBasedPage [' ', ' ', ' '] = true := by
  refine ⟨?_, by decide, by decide⟩
  intro s
  by_cases h50 : (jsTrim s).length < 50
  · simp [isImageBasedPage, h50]
  · have hne : jsTrim s ≠ [] := by
      intro he
      rw [he] at h50
      simp at h50
    have hb : (jsSplitWs (jsTrim s)).length = countTokens (jsTrim s) :=
      jsSplitWs_length_eq_countTokens (jsTrim s).length (jsTrim s) le_rfl hne
        (jsTrim_noLeadWs s) (jsTrim_noTrailWs s)
    simp [isImageBasedPage, h50, hb]

/-- C4 counterexample.  On a table whose storage order disagrees with upload
order (the scan meets the later upload `"b"` first), `findDuplicate` returns
`"b"` even though another non-excluded match `"a"` has a strictly earlier
upload time — so the result is not the earliest-uploaded match: the
`orderBy`-less `findFirst` gives no such guarantee. -/
theorem C4_counterexample :
    findDuplicate c4DbStorage "h" (some "zz") = some "b" ∧
    (∃ d ∈ c4DbStorage, d.id ≠ "zz" ∧ d.contentHash = some "h" ∧
       ∃ e ∈ c4DbStorage, e.id = "b" ∧ d.uploadedAt < e.uploadedAt) := by
  decide

/-- C4 (corrected).  `findDuplicate(hash, excludeId)` returns none exactly
when no document other than the excluded one carries the hash, and otherwise
the id of some document carrying the hash other than the excluded one — the
first match in the table's unspecified scan order, with no earliest-uploaded
guarantee. -/
theorem C4_findDuplicate_some_match (db : DocumentDb) (h : String) (ex : String) :
    (findDuplicate db h (some ex) = none ↔
       ∀ d ∈ db, d.id ≠ ex → d.contentHash ≠ some h) ∧
    (∀ i, findDuplicate db h (some ex) = some i →
       ∃ d ∈ db, d.id = i ∧ d.id ≠ ex ∧ d.contentHash = some h) := by
  constructor
  · unfold findDuplicate
    rw [Option.map_eq_none']
    rw [List.find?_eq_none]
    constructor
    · intro hnone d hd hne hhash
      have := hnone d hd
      simp [hhash, hne] at this
    · intro hall d hd
      simp only [Bool.and_eq_true, beq_iff_eq, bne_iff_ne, ne_eq]
      intro hcontra
      exact hall d hd hcontra.2 hcontra.1
  · intro i hi
    unfold findDuplicate at hi
    cases hf : db.find? (fun d =>
        d.contentHash == some h &&
          (match (some ex : Option String) with
           | some ex => d.id != ex
           | none => true)) with
    | none => rw [hf] at hi; cases hi
    | some d =>
      rw [hf] at hi
      injection hi with hi
      have hp := List.find?_some hf
      simp only [Bool.and_eq_true, beq_iff_eq, bne_iff_ne, ne_eq] at hp
      exact ⟨d, List.mem_of_find?_eq_some hf, hi, hp.2, hp.1⟩

/-- C4 witness: on the concrete table `findDuplicate` returns `"b"`, which
is indeed a non-excluded document carrying the hash. -/
theorem C4_witness :
    findDuplicate c4DbStorage "h" (some "zz") = some "b" ∧
    (∃ d ∈ c4DbStorage, d.id = "b" ∧ d.id ≠ "zz" ∧ d.contentHash = some "h") :=
  ⟨by decide,
   (C4_findDuplicate_some_match c4DbStorage "h" "zz").2 "b" (by decide)⟩

/-- Looking up the updated row sees the update, provided the update keeps the
id (as every write in the worker does). -/
theorem lookupDoc_updateDoc_self (db : DocumentDb) (i : String)
    (f : StoredDocument → StoredDocument) (hf : ∀ d, (f d).id = d.id) :
    lookupDoc (updateDoc db i f) i = (lookupDoc db i).map f := by
  induction db with
  | nil => rfl
  | cons a t ih =>
    unfold lookupDoc updateDoc at ih ⊢
    simp only [List.map_cons, List.find?_cons]
    by_cases ha : (a.id == i) = true
    · simp [ha, hf]
    · have ha' : (a.id == i) = false := by
        revert ha
        cases a.id == i <;> simp
      simp only [ha', Bool.false_eq_true, if_false]
      simpa using ih

/-- A row whose id differs from the updated one is untouched by the update. -/
theorem mem_updateDoc_of_ne {db : DocumentDb} {other : StoredDocument}
    {i : String} (hmem : other ∈ db) (hne : other.id ≠ i)
    (f : StoredDocument → StoredDocument) : other ∈ updateDoc db i f := by
  unfold updateDoc
  have he : (fun d => if d.id == i then f d else d) other = other := by
    simp [hne]
  rw [← he]
  exact List.mem_map_of_mem _ hmem

/-- C1 (confirmed).  When the processed document's content hash matches the
stored hash of some other document, the worker marks it completed with a
duplicate-of back-reference in its metadata and returns success right after
the fingerprint/duplicate-check stage: the text-extraction, thumbnail,
search-index and structured-data stages are never invoked and no
structured-data rows are created. -/
theorem C1_duplicate_short_circuit (env : WorkerEnv) (db : DocumentDb)
    (documentId : String) (doc : StoredDocument)
    (hdoc : lookupDoc db documentId = some doc)
    (hdup : ∃ other ∈ db, other.id ≠ documentId ∧
        other.contentHash = some (env.sha256 (env.s3Download doc.storageKey))) :
    (processDocumentWorker env db documentId).success = true ∧
    (∃ dupId, dupId ≠ documentId ∧
        lookupDoc (processDocumentWorker env db documentId).db documentId =
          some { doc with
                   contentHash := some (env.sha256 (env.s3Download doc.storageKey)),
                   ocrStatus := "completed",
                   metadata := DocMetadata.duplicateOf dupId env.nowIso }) ∧
    (processDocumentWorker env db documentId).trace =
      [Stage.fetchMetadata, Stage.download, Stage.fingerprint, Stage.duplicateCheck] ∧
    Stage.extractText ∉ (processDocumentWorker env db documentId).trace ∧
    Stage.thumbnail ∉ (processDocumentWorker env db documentId).trace ∧
    Stage.searchIndexing ∉ (processDocumentWorker env db documentId).trace ∧
    Stage.structuredData ∉ (processDocumentWorker env db documentId).trace ∧
    (processDocumentWorker env db documentId).rows = [] := by
  obtain ⟨other, hothermem, hotherne, hotherhash⟩ := hdup
  have hid1 : ∀ d : StoredDocument,
      ({ d with ocrStatus := "processing" } : StoredDocument).id = d.id := fun _ => rfl
  have hlook1 : lookupDoc
      (updateDoc db documentId (fun d => { d with ocrStatus := "processing" }))
      documentId = some { doc with ocrStatus := "processing" } := by
    rw [lookupDoc_updateDoc_self db documentId _ hid1, hdoc]
    rfl
  have hmem2 : other ∈ storeHash
      (updateDoc db documentId (fun d => { d with ocrStatus := "processing" }))
      documentId (env.sha256 (env.s3Download doc.storageKey)) := by
    unfold storeHash
    exact mem_updateDoc_of_ne (mem_updateDoc_of_ne hothermem hotherne _) hotherne _
  have hfindsome : ∃ x, (storeHash
      (updateDoc db documentId (fun d => { d with ocrStatus := "processing" }))
      documentId (env.sha256 (env.s3Download doc.storageKey))).find?
        (fun d => d.contentHash == some (env.sha256 (env.s3Download doc.storageKey)) &&
          d.id != documentId) = some x := by
    rw [← Option.isSome_iff_exists]
    rw [List.find?_isSome]
    exact ⟨other, hmem2, by simp [hotherhash, hotherne]⟩
  obtain ⟨found, hfound⟩ := hfindsome
  have hfoundp := List.find?_some hfound
  simp only [Bool.and_eq_true, beq_iff_eq, bne_iff_ne, ne_eq] at hfoundp
  have hfd : findDuplicate
      (storeHash
        (updateDoc db documentId (fun d => { d with ocrStatus := "processing" }))
        documentId (env.sha256 (env.s3Download doc.storageKey)))
      (env.sha256 (env.s3Download doc.storageKey)) (some documentId) =
      some found.id := by
    unfold findDuplicate
    rw [hfound]
    rfl
  have hworker : processDocumentWorker env db documentId =
      { db := updateDoc
          (storeHash
            (updateDoc db documentId (fun d => { d with ocrStatus := "processing" }))
            documentId (env.sha256 (env.s3Download doc.storageKey)))
          documentId (fun d =>
            { d with ocrStatus := "completed",
                     metadata := DocMetadata.duplicateOf found.id env.nowIso }),
        rows := [],
        trace := [Stage.fetchMetadata, Stage.download, Stage.fingerprint,
                  Stage.duplicateCheck],
        success := true } := by
    simp only [processDocumentWorker, hlook1, hfd]
  refine ⟨by simp only [hworker], ⟨found.id, hfoundp.2, ?_⟩, by simp only [hworker],
    by simp only [hworker]; decide, by simp only [hworker]; decide,
    by simp only [hworker]; decide, by simp only [hworker]; decide,
    by simp only [hworker]⟩
  simp only [hworker]
  rw [lookupDoc_updateDoc_self _ documentId
      (fun d => { d with ocrStatus := "completed",
                         metadata := DocMetadata.duplicateOf found.id env.nowIso })
      (fun _ => rfl)]
  unfold storeHash
  rw [lookupDoc_updateDoc_self _ documentId
      (fun d => { d with
        contentHash := some (env.sha256 (env.s3Download doc.storageKey)) })
      (fun _ => rfl)]
  rw [hlook1]
  rfl

/-- C1 witness: a concrete two-document table where the second upload is
byte-identical to the first; the worker short-circuits at the duplicate
check. -/
theorem C1_witness :
    lookupDoc c1Db "doc-2" = some c1DocB ∧
    (∃ other ∈ c1Db, other.id ≠ "doc-2" ∧
        other.contentHash = some (c1Env.sha256 (c1Env.s3Download c1DocB.storageKey))) ∧
    ((processDocumentWorker c1Env c1Db "doc-2").success = true ∧
     (∃ dupId, dupId ≠ "doc-2" ∧
        lookupDoc (processDocumentWorker c1Env c1Db "doc-2").db "doc-2" =
          some { c1DocB with
                   contentHash := some (c1Env.sha256 (c1Env.s3Download c1DocB.storageKey)),
                   ocrStatus := "completed",
                   metadata := DocMetadata.duplicateOf dupId c1Env.nowIso }) ∧
     (processDocumentWorker c1Env c1Db "doc-2").trace =
       [Stage.fetchMetadata, Stage.download, Stage.fingerprint, Stage.duplicateCheck] ∧
     Stage.extractText ∉ (processDocumentWorker c1Env c1Db "doc-2").trace ∧
     Stage.thumbnail ∉ (processDocumentWorker c1Env c1Db "doc-2").trace ∧
     Stage.searchIndexing ∉ (processDocumentWorker c1Env c1Db "doc-2").trace ∧
     Stage.structuredData ∉ (processDocumentWorker c1Env c1Db "doc-2").trace ∧
     (processDocumentWorker c1Env c1Db "doc-2").rows = []) :=
  ⟨by decide, ⟨c1DocA, by decide, by decide, by decide⟩,
   C1_duplicate_short_circuit c1Env c1Db "doc-2" c1DocB (by decide)
     ⟨c1DocA, by decide, by decide, by decide⟩⟩

/-- `find?` commutes with a map that preserves the predicate. -/
theorem find?_map_pred_comm {α : Type} (l : List α) (f : α → α) (p : α → Bool)
    (hf : ∀ a, p (f a) = p a) : (l.map f).find? p = (l.find? p).map f := by
  induction l with
  | nil => rfl
  | cons a t ih =>
    cases hp : p a with
    | true =>
      have hpf : p (f a) = true := by rw [hf a]; exact hp
      simp [List.find?_cons, hp, hpf]
    | false =>
      have hpf : p (f a) = false := by rw [hf a]; exact hp
      simp only [List.map_cons, List.find?_cons, hp, hpf]
      exact ih

/-- `find?` skips a prefix on which it fails. -/
theorem find?_append_of_none {α : Type} {l1 l2 : List α} {p : α → Bool}
    (h : l1.find? p = none) : (l1 ++ l2).find? p = l2.find? p := by
  induction l1 with
  | nil => rfl
  | cons a t ih =>
    cases hp : p a with
    | true =>
      rw [List.find?_cons, hp] at h
      simp at h
    | false =>
      rw [List.find?_cons, hp] at h
      rw [List.cons_append, List.find?_cons, hp]
      exact ih h

/-- `SETEX` leaves the key with the full TTL window. -/
theorem getSessionTTL_setSession (st : SessionStore) (k : String)
    (v : DocumentSession) :
    getSessionTTL (setSession st k v) k = some SESSION_TTL := by
  unfold setSession getSessionTTL
  have hf : ∀ e : String × DocumentSession × Nat,
      (((if e.1 == k then (k, v, SESSION_TTL) else e) : String × DocumentSession × Nat).1 == k) =
        (e.1 == k) := by
    intro e
    by_cases he : (e.1 == k) = true
    · simp [he]
    · have he' : (e.1 == k) = false := by
        revert he
        cases e.1 == k <;> simp
      simp [he']
  by_cases hany : st.entries.any (fun e => e.1 == k) = true
  · rw [if_pos hany]
    simp only
    rw [find?_map_pred_comm _ _ _ hf]
    obtain ⟨e0, he0mem, he0⟩ := List.any_eq_true.mp hany
    obtain ⟨e1, he1⟩ : ∃ e1, st.entries.find? (fun e => e.1 == k) = some e1 := by
      rw [← Option.isSome_iff_exists, List.find?_isSome]
      exact ⟨e0, he0mem, he0⟩
    rw [he1]
    have hp1 := List.find?_some he1
    simp only [Option.map_some']
    rw [if_pos hp1]
  · rw [if_neg hany]
    simp only
    have hnone : st.entries.find? (fun e => e.1 == k) = none := by
      rw [List.find?_eq_none]
      intro x hx
      intro hpx
      exact hany (List.any_eq_true.mpr ⟨x, hx, hpx⟩)
    rw [find?_append_of_none hnone]
    simp

/-- C3 (corrected).  `addViewer` returns none when the session is absent.
When the viewer is already present it returns the session without writing,
so the viewer set (still containing the user exactly once) and the TTL are
both left untouched; only when the viewer is newly appended does the
write-back reset the TTL to the full window. -/
theorem C3_addViewer_amended (st : SessionStore) (now sid uid : String) :
    (getSession st sid = none → addViewer st now sid uid = (none, st)) ∧
    (∀ s, getSession st sid = some s → uid ∈ s.viewers →
        addViewer st now sid uid = (some s, st)) ∧
    (∀ s, getSession st sid = some s → uid ∈ s.viewers → s.viewers.count uid = 1 →
        ∃ s2, (addViewer st now sid uid).1 = some s2 ∧ s2.viewers.count uid = 1) ∧
    (∀ s, getSession st sid = some s → uid ∉ s.viewers →
        ∃ s2, (addViewer st now sid uid).1 = some s2 ∧
          s2.viewers = s.viewers ++ [uid] ∧ s2.viewers.count uid = 1 ∧
          (s.sessionId = sid →
            getSessionTTL (addViewer st now sid uid).2 sid = some SESSION_TTL)) := by
  refine ⟨?_, ?_, ?_, ?_⟩
  · intro h
    simp [addViewer, h]
  · intro s hs hmem
    simp [addViewer, hs, hmem]
  · intro s hs hmem hcount
    refine ⟨s, ?_, hcount⟩
    simp [addViewer, hs, hmem]
  · intro s hs hmem
    refine ⟨{ s with viewers := s.viewers ++ [uid], lastActivity := now }, ?_, rfl, ?_, ?_⟩
    · simp [addViewer, hs, hmem]
    · simp only [List.count_append]
      rw [List.count_eq_zero.mpr hmem]
      simp
    · intro hsid
      simp only [addViewer, hs, hmem]
      rw [← hsid]
      exact getSessionTTL_setSession st s.sessionId _

/-- C3 counterexample.  A session whose key has a partly decayed TTL (100 s)
and whose viewer set already contains the user: the `addViewer` call succeeds
(idempotently) but performs no write, so the TTL remains 100 s instead of
being reset to the full window — the call does not refresh the TTL. -/
theorem C3_counterexample :
    (addViewer c3Store "2026-02-03T00:00:00Z" "s1" "u1").1.isSome = true ∧
    getSessionTTL (addViewer c3Store "2026-02-03T00:00:00Z" "s1" "u1").2 "s1" =
      some 100 ∧
    getSessionTTL (addViewer c3Store "2026-02-03T00:00:00Z" "s1" "u1").2 "s1" ≠
      some SESSION_TTL := by
  decide

/-- C3 witness: the already-present branch at a concrete store returns the
stored session and leaves the store untouched. -/
theorem C3_witness :
    getSession c3Store "s1" = some c3Session ∧
    addViewer c3Store "t9" "s1" "u1" = (some c3Session, c3Store) :=
  ⟨by decide,
   (C3_addViewer_amended c3Store "t9" "s1" "u1").2.1 c3Session (by decide) (by decide)⟩

/-- `broadcast` over a found room reduces to a filter-map over its
connections: everyone except the excluded sender, open transports only. -/
theorem broadcast_of_find (clients : ClientsMap) (sid : String) (t : String)
    (x : Nat) (conns : List Conn)
    (hfind : clients.find? (fun e => e.1 == sid) = some (sid, conns)) :
    broadcast clients sid t (some x) =
      (conns.filter (fun c => c.cid != x && c.isOpen)).map
        (fun c => { dest := c.cid, msg := SendMsg.event t }) := by
  unfold broadcast
  rw [hfind]

/-- With pairwise-distinct connection ids, each open connection other than
the excluded one receives exactly one copy of a broadcast. -/
theorem countP_map_filter_one (conns : List Conn) (x : Nat) (t : String)
    (hnodup : (conns.map (fun c => c.cid)).Nodup)
    (c : Conn) (hc : c ∈ conns) (hne : c.cid ≠ x) (hopen : c.isOpen = true) :
    ((conns.filter (fun d => d.cid != x && d.isOpen)).map
        (fun d => ({ dest := d.cid, msg := SendMsg.event t } : Send))).countP
      (fun m => m.dest == c.cid) = 1 := by
  induction conns with
  | nil => cases hc
  | cons a rest ih =>
    simp only [List.map_cons, List.nodup_cons] at hnodup
    rcases List.mem_cons.mp hc with hca | hcr
    · subst hca
      have hfc : (c :: rest).filter (fun d => d.cid != x && d.isOpen) =
          c :: rest.filter (fun d => d.cid != x && d.isOpen) := by
        simp [List.filter_cons, hne, hopen]
      rw [hfc, List.map_cons, List.countP_cons]
      have hpa : ((fun m : Send => m.dest == c.cid)
          ({ dest := c.cid, msg := SendMsg.event t } : Send)) = true := by simp
      rw [if_pos hpa]
      have h0 : ((rest.filter (fun d => d.cid != x && d.isOpen)).map
          (fun d => ({ dest := d.cid, msg := SendMsg.event t } : Send))).countP
            (fun m => m.dest == c.cid) = 0 := by
        rw [List.countP_eq_zero]
        intro m hm
        obtain ⟨d, hd, hdm⟩ := List.mem_map.mp hm
        obtain ⟨hdmem, hq⟩ := List.mem_filter.mp hd
        rw [← hdm]
        simp only [beq_iff_eq]
        intro he
        apply hnodup.1
        rw [← he]
        exact List.mem_map_of_mem _ hdmem
      rw [h0]
    · have hane : a.cid ≠ c.cid := by
        intro he
        apply hnodup.1
        rw [he]
        exact List.mem_map_of_mem _ hcr
      cases hqa : (a.cid != x && a.isOpen) with
      | true =>
        have hfc : (a :: rest).filter (fun d => d.cid != x && d.isOpen) =
            a :: rest.filter (fun d => d.cid != x && d.isOpen) := by
          simp [List.filter_cons, hqa]
        rw [hfc, List.map_cons, List.countP_cons]
        have hnpa : ¬((fun m : Send => m.dest == c.cid)
            ({ dest := a.cid, msg := SendMsg.event t } : Send)) = true := by
          simp [hane]
        rw [if_neg hnpa]
        rw [Nat.add_zero]
        exact ih hnodup.2 hcr
      | false =>
        have hfc : (a :: rest).filter (fun d => d.cid != x && d.isOpen) =
            rest.filter (fun d => d.cid != x && d.isOpen) := by
          simp [List.filter_cons, hqa]
        rw [hfc]
        exact ih hnodup.2 hcr

/-- C5 (confirmed).  With the session present and the room's connection ids
distinct: a page-change produces no messages at all when `syncPage` is false
and exactly one `page:changed` per other open connection when it is true;
likewise scroll-sync with `syncScroll`; push-page and push-reference always
deliver exactly one message per other open connection, regardless of the
sync flags. -/
theorem C5_sync_gated_broadcast (st : SessionStore) (clients : ClientsMap)
    (now : String) (ws : Conn) (sid : String) (s : DocumentSession)
    (conns : List Conn) (page : Nat) (pos : Int) (refId : String)
    (hsess : getSession st sid = some s)
    (hfind : clients.find? (fun e => e.1 == sid) = some (sid, conns))
    (hnodup : (conns.map (fun c => c.cid)).Nodup) :
    (s.syncSettings.syncPage = false →
       (handlePageChange st clients now ws (some ⟨sid, page⟩)).2 = []) ∧
    (s.syncSettings.syncPage = true →
       ∀ c ∈ conns, c.cid ≠ ws.cid → c.isOpen = true →
         ((handlePageChange st clients now ws (some ⟨sid, page⟩)).2.countP
             (fun m => m.dest == c.cid)) = 1) ∧
    (s.syncSettings.syncScroll = false →
       (handleScrollSync st clients now ws (some ⟨sid, pos⟩)).2 = []) ∧
    (s.syncSettings.syncScroll = true →
       ∀ c ∈ conns, c.cid ≠ ws.cid → c.isOpen = true →
         ((handleScrollSync st clients now ws (some ⟨sid, pos⟩)).2.countP
             (fun m => m.dest == c.cid)) = 1) ∧
    (∀ c ∈ conns, c.cid ≠ ws.cid → c.isOpen = true →
       ((handlePushPage st clients now ws (some ⟨sid, page⟩)).2.countP
           (fun m => m.dest == c.cid)) = 1) ∧
    (∀ c ∈ conns, c.cid ≠ ws.cid → c.isOpen = true →
       ((handlePushReference st clients ws (some ⟨sid, refId⟩)).2.countP
           (fun m => m.dest == c.cid)) = 1) := by
  refine ⟨?_, ?_, ?_, ?_, ?_, ?_⟩
  · intro hflag
    simp [handlePageChange, updatePage, hsess, hflag]
  · intro hflag c hc hne hopen
    simp only [handlePageChange, updatePage, hsess, hflag, if_true]
    rw [broadcast_of_find clients sid "page:changed" ws.cid conns hfind]
    exact countP_map_filter_one conns ws.cid "page:changed" hnodup c hc hne hopen
  · intro hflag
    simp [handleScrollSync, updateScroll, hsess, hflag]
  · intro hflag c hc hne hopen
    simp only [handleScrollSync, updateScroll, hsess, hflag, if_true]
    rw [broadcast_of_find clients sid "scroll:synced" ws.cid conns hfind]
    exact countP_map_filter_one conns ws.cid "scroll:synced" hnodup c hc hne hopen
  · intro c hc hne hopen
    simp only [handlePushPage, updatePage, hsess]
    rw [broadcast_of_find clients sid "page:pushed" ws.cid conns hfind]
    exact countP_map_filter_one conns ws.cid "page:pushed" hnodup c hc hne hopen
  · intro c hc hne hopen
    simp only [handlePushReference, hsess]
    rw [broadcast_of_find clients sid "reference:pushed" ws.cid conns hfind]
    exact countP_map_filter_one conns ws.cid "reference:pushed" hnodup c hc hne hopen

/-- C5 witness: with `syncPage = false` the page-change is silent, while a
push-page still delivers exactly one message to the other open connection. -/
theorem C5_witness :
    getSession c5Store "s1" = some c5Session ∧
    (handlePageChange c5Store c5Clients "t1" c5Ws (some ⟨"s1", 4⟩)).2 = [] ∧
    ((handlePushPage c5Store c5Clients "t1" c5Ws (some ⟨"s1", 4⟩)).2.countP
        (fun m => m.dest == c5Other.cid)) = 1 :=
  ⟨by decide,
   (C5_sync_gated_broadcast c5Store c5Clients "t1" c5Ws "s1" c5Session
      [c5Ws, c5Other] 4 0 "r" (by decide) (by decide) (by decide)).1 (by decide),
   (C5_sync_gated_broadcast c5Store c5Clients "t1" c5Ws "s1" c5Session
      [c5Ws, c5Other] 4 0 "r" (by decide) (by decide) (by decide)).2.2.2.2.1
     c5Other (by decide) (by decide) (by decide)⟩

/-- C7 (confirmed).  A frame that fails JSON/`WSMessageSchema` parsing, a
recognized type whose payload validates no schema, and an unrecognized type
string all produce exactly one `error` event to the originating connection
and nothing to any other connection; `handleMessage` is a total function, so
handling never throws. -/
theorem C7_scoped_errors (g : Gateway) (now newId : String) (ws : Conn) :
    ((handleMessage g now newId ws InMessage.unparseable).out =
        [{ dest := ws.cid, msg := SendMsg.errorMsg }]) ∧
    (∀ t d, t ∉ recognizedTypes →
       (handleMessage g now newId ws (InMessage.message t d)).out =
         [{ dest := ws.cid, msg := SendMsg.errorMsg }]) ∧
    (∀ t, (handleMessage g now newId ws (InMessage.message t InData.malformed)).out =
        [{ dest := ws.cid, msg := SendMsg.errorMsg }]) := by
  have hmain : ∀ t d, t ∉ recognizedTypes →
      (handleMessage g now newId ws (InMessage.message t d)).out =
        [{ dest := ws.cid, msg := SendMsg.errorMsg }] := by
    intro t d ht
    simp only [recognizedTypes, List.mem_cons, List.not_mem_nil, or_false,
      not_or] at ht
    obtain ⟨h1, h2, h3, h4, h5, h6, h7, h8, h9, h10, h11⟩ := ht
    have e1 := beq_eq_false_iff_ne.mpr h1
    have e2 := beq_eq_false_iff_ne.mpr h2
    have e3 := beq_eq_false_iff_ne.mpr h3
    have e4 := beq_eq_false_iff_ne.mpr h4
    have e5 := beq_eq_false_iff_ne.mpr h5
    have e6 := beq_eq_false_iff_ne.mpr h6
    have e7 := beq_eq_false_iff_ne.mpr h7
    have e8 := beq_eq_false_iff_ne.mpr h8
    have e9 := beq_eq_false_iff_ne.mpr h9
    have e10 := beq_eq_false_iff_ne.mpr h10
    have e11 := beq_eq_false_iff_ne.mpr h11
    simp [handleMessage, e1, e2, e3, e4, e5, e6, e7, e8, e9, e10, e11, errTo]
  refine ⟨rfl, hmain, ?_⟩
  intro t
  by_cases hmem : t ∈ recognizedTypes
  · simp only [recognizedTypes, List.mem_cons, List.not_mem_nil, or_false] at hmem
    rcases hmem with rfl | rfl | rfl | rfl | rfl | rfl | rfl | rfl | rfl | rfl | rfl <;>
      simp [handleMessage, handleSessionCreate, handleSessionJoinMsg,
        handleSessionLeave, handleSessionUpdateSettings, handlePageChange,
        handleScrollSync, handlePushPage, handlePushReference,
        handleAnnotationCreate, handleAnnotationUpdate, handleAnnotationDelete,
        InData.asSessionCreate, InData.asSessionJoin, InData.asSessionLeave,
        InData.asSessionUpdateSettings, InData.asPageChange, InData.asScrollSync,
        InData.asPushPage, InData.asPushReference, InData.asAnnotationCreate,
        InData.asAnnotationUpdate, InData.asAnnotationDelete, errTo]
  · exact hmain t InData.malformed hmem

/-- C7 witness: an unrecognized type string on a concrete gateway yields the
single scoped error to the sender. -/
theorem C7_witness :
    ("bogus:type" ∉ recognizedTypes) ∧
    (handleMessage c7Gateway "t" "id1" c7Ws
        (InMessage.message "bogus:type" InData.malformed)).out =
      [{ dest := c7Ws.cid, msg := SendMsg.errorMsg }] :=
  ⟨by decide,
   (C7_scoped_errors c7Gateway "t" "id1" c7Ws).2.1 "bogus:type"
     InData.malformed (by decide)⟩

/-- Looking for a key in a list filtered to exclude that key finds nothing. -/
theorem find?_filter_ne_none (clients : ClientsMap) (sid : String) :
    (clients.filter (fun e2 => e2.1 != sid)).find? (fun e => e.1 == sid) = none := by
  rw [List.find?_eq_none]
  intro e he hpe
  obtain ⟨_, hne⟩ := List.mem_filter.mp he
  rw [beq_iff_eq] at hpe
  rw [bne_iff_ne] at hne
  exact hne hpe

/-- The room entry after `removeClient`: gone when the room emptied,
otherwise holding the remaining connections. -/
theorem find?_removeClient (clients : ClientsMap) (sid : String) (x : Nat)
    (conns : List Conn)
    (hfind : clients.find? (fun e => e.1 == sid) = some (sid, conns)) :
    (removeClient clients sid x).find? (fun e => e.1 == sid) =
      if (conns.filter (fun c => c.cid != x)).isEmpty then none
      else some (sid, conns.filter (fun c => c.cid != x)) := by
  simp only [removeClient, hfind]
  by_cases hemp : (conns.filter (fun c => c.cid != x)).isEmpty = true
  · rw [if_pos hemp, if_pos hemp]
    exact find?_filter_ne_none clients sid
  · rw [if_neg hemp, if_neg hemp]
    have hp : ∀ e : String × List Conn,
        ((((if e.1 == sid then (e.1, conns.filter (fun c => c.cid != x)) else e) :
            String × List Conn)).1 == sid) = (e.1 == sid) := by
      intro e
      by_cases he : (e.1 == sid) = true
      · simp [he]
      · have he' : (e.1 == sid) = false := by
          revert he
          cases e.1 == sid <;> simp
        simp [he']
    rw [find?_map_pred_comm _ _ _ hp, hfind]
    simp

/-- C8 (confirmed).  Disconnecting a Joined connection removes exactly it
from the session's connection set, issues the `removeViewer(sessionId,
userId)` call, sends exactly one leave notification to each remaining open
connection of the session and to nobody else — and the connection-set
cleanup, the call and the broadcast are identical whether the `removeViewer`
call succeeds or fails. -/
theorem C8_disconnect_cleanup (st : SessionStore) (clients : ClientsMap)
    (now : String) (ws : Conn) (ok : Bool) (sid uid : String) (conns : List Conn)
    (hsid : ws.sessionId = some sid)
    (huid : ws.userId = some uid)
    (hfind : clients.find? (fun e => e.1 == sid) = some (sid, conns))
    (hnodup : (conns.map (fun c => c.cid)).Nodup) :
    connsOf (handleDisconnect st clients now ws ok).clients sid =
        conns.filter (fun c => c.cid != ws.cid) ∧
    (handleDisconnect st clients now ws ok).removeViewerCall = some (sid, uid) ∧
    (∀ c ∈ conns, c.cid ≠ ws.cid → c.isOpen = true →
       ((handleDisconnect st clients now ws ok).out.countP
           (fun m => m.dest == c.cid)) = 1) ∧
    (∀ m ∈ (handleDisconnect st clients now ws ok).out,
       ∃ c ∈ conns, c.cid = m.dest ∧ c.cid ≠ ws.cid ∧ c.isOpen = true) ∧
    ((handleDisconnect st clients now ws ok).clients =
        (handleDisconnect st clients now ws true).clients ∧
     (handleDisconnect st clients now ws ok).out =
        (handleDisconnect st clients now ws true).out ∧
     (handleDisconnect st clients now ws ok).removeViewerCall =
        (handleDisconnect st clients now ws true).removeViewerCall) := by
  have hcompute : ∀ b : Bool, handleDisconnect st clients now ws b =
      { store := if b then (removeViewer st now sid uid).2 else st,
        clients := removeClient clients sid ws.cid,
        removeViewerCall := some (sid, uid),
        out := broadcast (removeClient clients sid ws.cid) sid "session:left"
          (some ws.cid) } := by
    intro b
    simp only [handleDisconnect, hsid, huid]
  have hrc := find?_removeClient clients sid ws.cid conns hfind
  by_cases hemp : ((conns.filter (fun c => c.cid != ws.cid)).isEmpty) = true
  · rw [if_pos hemp] at hrc
    have hempeq : conns.filter (fun c => c.cid != ws.cid) = [] :=
      List.isEmpty_iff.mp hemp
    refine ⟨?_, ?_, ?_, ?_, ?_⟩
    · rw [hcompute ok]
      simp only [connsOf, hrc]
      rw [hempeq]
    · rw [hcompute ok]
    · intro c hc hne hopen
      exfalso
      have hcm : c ∈ conns.filter (fun c => c.cid != ws.cid) :=
        List.mem_filter.mpr ⟨hc, by simp [hne]⟩
      rw [hempeq] at hcm
      cases hcm
    · intro m hm
      rw [hcompute ok] at hm
      simp only [broadcast, hrc] at hm
      cases hm
    · rw [hcompute ok, hcompute true]
      exact ⟨rfl, rfl, rfl⟩
  · rw [if_neg hemp] at hrc
    have hbc : broadcast (removeClient clients sid ws.cid) sid "session:left"
        (some ws.cid) =
        ((conns.filter (fun c => c.cid != ws.cid)).filter
            (fun c => c.cid != ws.cid && c.isOpen)).map
          (fun c => { dest := c.cid, msg := SendMsg.event "session:left" }) :=
      broadcast_of_find _ sid _ ws.cid _ hrc
    refine ⟨?_, ?_, ?_, ?_, ?_⟩
    · rw [hcompute ok]
      simp only [connsOf, hrc]
    · rw [hcompute ok]
    · intro c hc hne hopen
      rw [hcompute ok]
      simp only [hbc]
      have hnodup2 : (((conns.filter (fun c => c.cid != ws.cid)).map
          (fun c => c.cid))).Nodup :=
        List.Nodup.sublist ((List.filter_sublist conns).map (fun c => c.cid)) hnodup
      have hc2 : c ∈ conns.filter (fun c => c.cid != ws.cid) :=
        List.mem_filter.mpr ⟨hc, by simp [hne]⟩
      exact countP_map_filter_one _ ws.cid "session:left" hnodup2 c hc2 hne hopen
    · intro m hm
      rw [hcompute ok] at hm
      simp only [hbc] at hm
      obtain ⟨d, hd, hdm⟩ := List.mem_map.mp hm
      obtain ⟨hd1, hd2⟩ := List.mem_filter.mp hd
      obtain ⟨hd0, hd3⟩ := List.mem_filter.mp hd1
      refine ⟨d, hd0, ?_, ?_, ?_⟩
      · rw [← hdm]
      · simpa using hd3
      · simp only [Bool.and_eq_true] at hd2
        simpa using hd2.2
    · rw [hcompute ok, hcompute true]
      exact ⟨rfl, rfl, rfl⟩

/-- C8 witness: disconnecting the joined connection `c8Ws` (with the
`removeViewer` call failing) still removes it from the room, records the
`removeViewer("s1","u1")` call, and delivers exactly one leave notification
to the remaining open connection. -/
theorem C8_witness :
    c8Ws.sessionId = some "s1" ∧ c8Ws.userId = some "u1" ∧
    (connsOf (handleDisconnect c8Store c8Clients "t2" c8Ws false).clients "s1" =
        [c8Ws, c8Other].filter (fun c => c.cid != c8Ws.cid) ∧
     (handleDisconnect c8Store c8Clients "t2" c8Ws false).removeViewerCall =
        some ("s1", "u1") ∧
     (∀ c ∈ [c8Ws, c8Other], c.cid ≠ c8Ws.cid → c.isOpen = true →
        ((handleDisconnect c8Store c8Clients "t2" c8Ws false).out.countP
            (fun m => m.dest == c.cid)) = 1) ∧
     (∀ m ∈ (handleDisconnect c8Store c8Clients "t2" c8Ws false).out,
        ∃ c ∈ [c8Ws, c8Other], c.cid = m.dest ∧ c.cid ≠ c8Ws.cid ∧
          c.isOpen = true) ∧
     ((handleDisconnect c8Store c8Clients "t2" c8Ws false).clients =
         (handleDisconnect c8Store c8Clients "t2" c8Ws true).clients ∧
      (handleDisconnect c8Store c8Clients "t2" c8Ws false).out =
         (handleDisconnect c8Store c8Clients "t2" c8Ws true).out ∧
      (handleDisconnect c8Store c8Clients "t2" c8Ws false).removeViewerCall =
         (handleDisconnect c8Store c8Clients "t2" c8Ws true).removeViewerCall)) :=
  ⟨by decide, by decide,
   C8_disconnect_cleanup c8Store c8Clients "t2" c8Ws false "s1" "u1"
     [c8Ws, c8Other] (by decide) (by decide) (by decide) (by decide)⟩

/-- `failTransition` keeps the job id. -/
theorem failTransition_jobId (now : Nat) (x : QueuedJob) :
    (failTransition now x).jobId = x.jobId := by
  unfold failTransition
  split <;> rfl

/-- `failTransition` increments the attempt count. -/
theorem failTransition_attempts (now : Nat) (x : QueuedJob) :
    (failTransition now x).attemptsMade = x.attemptsMade + 1 := by
  unfold failTransition
  split <;> rfl

/-- A successful lease names a job that was waiting with its delay elapsed. -/
theorem lease_returns_waiting (q : JobQueue) (now : Nat) (i : Nat)
    (h : (lease q now).1 = some i) :
    ∃ j0 ∈ q.jobs, j0.jobId = i ∧
      ∃ t, j0.state = JobState.waiting t ∧ t ≤ now := by
  cases hf : q.jobs.find? (leasable now) with
  | none => simp [lease, hf] at h
  | some j0 =>
    simp only [lease, hf] at h
    injection h with h
    refine ⟨j0, List.mem_of_find?_eq_some hf, h, ?_⟩
    have hp := List.find?_some hf
    cases hs : j0.state with
    | waiting t =>
      simp [leasable, hs] at hp
      exact ⟨t, rfl, hp⟩
    | active => simp [leasable, hs] at hp
    | completed => simp [leasable, hs] at hp
    | failed => simp [leasable, hs] at hp

/-- C2 (code bug).  The only enqueue path in the repository,
`enqueueDocumentProcessing`, adds jobs through the doc-api Queue instance,
which has no `defaultJobOptions` — so every enqueued job carries no retry
options and BullMQ gives it a single attempt.  Consequently failing an
active repository-enqueued job marks it terminally failed with the attempt
count incremented once (for a fresh job: exactly 1, not 3); it is never
re-enqueued as waiting, and since a lease only ever returns a waiting job it
is never leased again.  The `attempts: 3` / 2000 ms configuration exists
only on the doc-processor Queue instance, through which no job is added. -/
theorem C2_first_failure_terminal :
    (∀ q d t0, enqueueDocumentProcessing q d t0 =
        (q.nextId,
         { jobs := q.jobs ++ [{ jobId := q.nextId, documentId := d,
                                opts := apiQueueJobOptions, attemptsMade := 0,
                                state := JobState.waiting t0 }],
           nextId := q.nextId + 1 })) ∧
    (∀ q jid tf j, lookupJob q jid = some j → j.opts = apiQueueJobOptions →
        j.state = JobState.active →
        ∃ j2, lookupJob (failJob q jid tf) jid = some j2 ∧
          j2.attemptsMade = j.attemptsMade + 1 ∧
          j2.state = JobState.failed ∧
          ∀ t, j2.state ≠ JobState.waiting t) ∧
    (∀ q now2 i2, (lease q now2).1 = some i2 →
        ∃ j0 ∈ q.jobs, j0.jobId = i2 ∧
          ∃ t, j0.state = JobState.waiting t ∧ t ≤ now2) := by
  refine ⟨fun q d t0 => rfl, ?_, lease_returns_waiting⟩
  intro q jid tf j hj hopts hactive
  have hjid := List.find?_some hj
  have hp : ∀ x : QueuedJob,
      ((if x.jobId == jid && x.state == JobState.active then failTransition tf x
        else x).jobId == jid) = (x.jobId == jid) := by
    intro x
    split
    · rw [failTransition_jobId]
    · rfl
  have hlk : lookupJob (failJob q jid tf) jid =
      (lookupJob q jid).map (fun x =>
        if x.jobId == jid && x.state == JobState.active then failTransition tf x
        else x) := by
    unfold lookupJob failJob
    exact find?_map_pred_comm q.jobs
      (fun x => if x.jobId == jid && x.state == JobState.active then
          failTransition tf x else x)
      (fun x => x.jobId == jid) hp
  rw [hlk, hj]
  have hcond : (j.jobId == jid && j.state == JobState.active) = true := by
    simp [hjid, hactive]
  simp only [Option.map_some']
  rw [if_pos hcond]
  have hterm : failTransition tf j =
      { j with attemptsMade := j.attemptsMade + 1, state := JobState.failed } := by
    unfold failTransition
    rw [if_neg]
    rw [hopts]
    simp [apiQueueJobOptions]
  rw [hterm]
  exact ⟨_, rfl, rfl, rfl, fun t h => JobState.noConfusion h⟩

/-- C2 witness: the concrete job enqueued through
`enqueueDocumentProcessing` and leased carries no retry options; failing it
once at time 5 leaves it terminally failed with attempt count exactly 1. -/
theorem C2_witness :
    lookupJob c2Queue 0 = some c2Job ∧ c2Job.opts = apiQueueJobOptions ∧
    c2Job.state = JobState.active ∧
    (∃ j2, lookupJob (failJob c2Queue 0 5) 0 = some j2 ∧
        j2.attemptsMade = c2Job.attemptsMade + 1 ∧
        j2.state = JobState.failed ∧
        ∀ t, j2.state ≠ JobState.waiting t) :=
  ⟨by decide, by decide, by decide,
   C2_first_failure_terminal.2.1 c2Queue 0 5 c2Job (by decide) (by decide)
     (by decide)⟩

end NexusCodex
